import Mathlib

/-
  Verification of the magneato DSK-container codec (damieng/magneato).

  Shallow embedding conventions:
  * A Go `[]byte` is a `List Nat`, each element the byte value (0..255).
  * Go strings handled by the codec are byte strings; they are also `List Nat`
    of character codes.
  * Fallible Go functions returning `(T, error)` become `Except Err T`.
  * Go `int` is 64-bit; where its overflow matters (the extended parser's
    `128 * (1 << N)` sector length) the arithmetic is done in `Int` with an
    explicit two's-complement wrap at 2^64.
  * `fmt.Printf` warnings are collected in a `List Warn` result component.
-/

namespace Magneato

/-! ## Byte-buffer utilities -/

/-- Byte at offset `i` of a buffer (Go indexing; out of range never occurs at
use sites that matter, default 0). -/
def byteAt (data : List Nat) (i : Nat) : Nat := data.getD i 0

/-- Model of reading `n` bytes from position `pos` of buffer `td` into a
zero-initialised `make([]byte, n)` via `bytes.Reader.Read`: the available
bytes are copied and the remainder of the destination stays zero. The result
always has length `n`. -/
def readUpTo (td : List Nat) (pos n : Nat) : List Nat :=
  let got := (td.drop pos).take n
  got ++ List.replicate (n - got.length) 0

/-- Number of bytes `bytes.Reader.Read` actually consumes when asked for `n`
bytes at position `pos` of `td`. -/
def consumed (td : List Nat) (pos n : Nat) : Nat := min n (td.length - pos)

/-- `p` is an initial segment of `l` (mirrors `strings.HasPrefix` /
`bytes.HasPrefix` on byte strings). -/
def listStarts : List Nat → List Nat → Bool
  | [], _ => true
  | _ :: _, [] => false
  | a :: as, b :: bs => a == b && listStarts as bs

/-- `bytes.TrimRight(s, cutset)`: drop trailing bytes that belong to `cut`. -/
def trimRight (s : List Nat) (cut : List Nat) : List Nat :=
  (s.reverse.dropWhile (fun b => cut.contains b)).reverse

/-! ## ASCII/Hex hybrid codec (formatters.go) -/

/-- `minRLE` from formatters.go. -/
def minRLE : Nat := 4

/-- `isHexDigit` from formatters.go. -/
def isHexDigit (b : Nat) : Bool :=
  (48 ≤ b && b ≤ 57) || (65 ≤ b && b ≤ 70) || (97 ≤ b && b ≤ 102)

/-- Value of a single hex digit character (only used on hex digits). -/
def hexVal (b : Nat) : Nat :=
  if 48 ≤ b && b ≤ 57 then b - 48
  else if 65 ≤ b && b ≤ 70 then b - 55
  else b - 87

/-- Uppercase hex digit character for a value 0..15 (`fmt %X`). -/
def hexDigitU (d : Nat) : Nat := if d < 10 then 48 + d else 55 + d

/-- `fmt.Sprintf("%02X", b)` for a byte: exactly two uppercase hex digits. -/
def hexPair (b : Nat) : List Nat := [hexDigitU (b / 16), hexDigitU (b % 16)]

/-- Digits of `fmt.Sprintf("%X", n)`, via a structural fuel argument (the
fuel only needs to exceed the number of digits; `n` itself always does). -/
def toHexUF (fuel n : Nat) : List Nat :=
  match fuel with
  | 0 => [hexDigitU (n % 16)]
  | f + 1 =>
      if n < 16 then [hexDigitU n]
      else toHexUF f (n / 16) ++ [hexDigitU (n % 16)]

/-- `fmt.Sprintf("%X", n)` for a number: uppercase hex digits, no padding. -/
def toHexU (n : Nat) : List Nat := toHexUF n n

/-- `countRepeats` from formatters.go: length of the initial run of identical
bytes. -/
def countRepeats (data : List Nat) : Nat :=
  match data with
  | [] => 0
  | b :: rest => 1 + (rest.takeWhile (fun x => x == b)).length

/-- `chooseToggle` from formatters.go: first printable byte (32..126) not
occurring in the data; if every printable byte occurs, the least frequent
printable byte (first winner in ascending scan, starting from the state
`minFreq = len(data), minByte = 126`). -/
def chooseToggle (data : List Nat) : Nat :=
  match (List.range' 32 95).find? (fun b => data.count b == 0) with
  | some b => b
  | none =>
      ((List.range' 32 95).foldl
        (fun st b => if data.count b < st.1 then (data.count b, b) else st)
        (data.length, 126)).2

/-- Loop body of `encodeASCIIHex`: processes the remaining data with the
current hex/text mode flag, emitting character codes. Structural recursion on
a fuel argument; every iteration consumes at least one input byte, so fuel
`data.length` (supplied by the wrapper) never runs out. -/
def encodeLoop (fuel : Nat) (toggle : Nat) (data : List Nat) (inHex : Bool) :
    List Nat :=
  match fuel, data with
  | _, [] => []
  | 0, _ => []
  | f + 1, b :: rest =>
      let runLen := countRepeats (b :: rest)
      if minRLE ≤ runLen then
        (if inHex then [] else [toggle]) ++ hexPair b ++ [42] ++ toHexU runLen ++
          encodeLoop f toggle ((b :: rest).drop runLen) true
      else
        let isASCII := 32 ≤ b && b ≤ 126 && b != toggle
        let inHex2 := if isASCII && inHex then false
                      else if !isASCII && !inHex then true
                      else inHex
        let switch : List Nat := if inHex2 == inHex then [] else [toggle]
        switch ++ (if inHex2 then hexPair b else [b]) ++
          encodeLoop f toggle rest inHex2

/-- `encodeASCIIHex` from formatters.go. Returns the encoded character codes;
the chosen toggle byte is appended as the final character. -/
def encodeASCIIHex (data : List Nat) : List Nat :=
  if data.isEmpty then []
  else
    let toggle := chooseToggle data
    encodeLoop data.length toggle data false ++ [toggle]

/-- Decoder errors (the `fmt.Errorf` cases of `decodeASCIIHex`). -/
inductive DecErr where
  | emptyInput : DecErr
  | incompleteHex : DecErr
  | invalidHex : DecErr
  | invalidCount : DecErr
  deriving DecidableEq, Repr

/-- `strconv.ParseUint(s, 16, 8)` on a two-character hex pair: both characters
must be hex digits. -/
def parsePair (c0 c1 : Nat) : Except DecErr Nat :=
  if isHexDigit c0 && isHexDigit c1 then .ok (hexVal c0 * 16 + hexVal c1)
  else .error .invalidHex

/-- `strconv.ParseInt(s, 16, 32)` on the run-length digit string: fails on an
empty string and on values exceeding the 32-bit signed range. -/
def parseHexCount (digits : List Nat) : Except DecErr Nat :=
  if digits.isEmpty then .error .invalidCount
  else
    let v := digits.foldl (fun a d => a * 16 + hexVal d) 0
    if v ≤ 2147483647 then .ok v else .error .invalidCount

/-- Loop body of `decodeASCIIHex`: scans the remaining characters with the
current hex/text mode flag. A toggle character flips the mode; in hex mode a
pair whose next character is a literal `*` (code 42) starts a run-length
token whose count is the following maximal run of hex digits. -/
def decodeLoop (fuel : Nat) (toggle : Nat) (s : List Nat) (inHex : Bool) :
    Except DecErr (List Nat) :=
  match fuel, s with
  | _, [] => .ok []
  | 0, _ => .ok []
  | f + 1, c :: rest =>
      if c == toggle then decodeLoop f toggle rest (!inHex)
      else if inHex then
        match rest with
        | [] => .error .incompleteHex
        | c1 :: rest1 =>
            match rest1 with
            | star :: rest2 =>
                if star == 42 then
                  match parsePair c c1 with
                  | .error e => .error e
                  | .ok val =>
                      let digits := rest2.takeWhile isHexDigit
                      let restAfter := rest2.dropWhile isHexDigit
                      match parseHexCount digits with
                      | .error e => .error e
                      | .ok count =>
                          match decodeLoop f toggle restAfter inHex with
                          | .error e => .error e
                          | .ok tail => .ok (List.replicate count val ++ tail)
                else
                  match parsePair c c1 with
                  | .error e => .error e
                  | .ok val =>
                      match decodeLoop f toggle rest1 inHex with
                      | .error e => .error e
                      | .ok tail => .ok (val :: tail)
            | [] =>
                match parsePair c c1 with
                | .error e => .error e
                | .ok val => .ok [val]
      else
        match decodeLoop f toggle rest inHex with
        | .error e => .error e
        | .ok tail => .ok (c :: tail)

/-- `decodeASCIIHex` from formatters.go: the toggle is the final character of
the input; the rest is scanned by `decodeLoop` (fuel: every iteration
consumes at least one character, so the input length bounds the iteration
count). -/
def decodeASCIIHex (encoded : List Nat) : Except DecErr (List Nat) :=
  if encoded.isEmpty then .error .emptyInput
  else
    let toggle := encoded.getLast!
    decodeLoop encoded.length toggle (encoded.dropLast) false

/-! ## Data model (types.go) -/

/-- `HeaderSize` from types.go. -/
def HeaderSize : Nat := 256

/-- `SectorInfo` from types.go: the 8-byte sector descriptor. -/
structure SectorInfo where
  c : Nat
  h : Nat
  r : Nat
  n : Nat
  fdcStatus1 : Nat
  fdcStatus2 : Nat
  dataLength : Nat
  deriving DecidableEq, Repr, Inhabited

/-- `TrackHeader` from types.go (24 bytes on disk). -/
structure TrackHeader where
  signature : List Nat
  unused : List Nat
  trackNum : Nat
  sideNum : Nat
  unused2 : List Nat
  sectorSize : Nat
  sectorCount : Nat
  gap3Length : Nat
  fillerByte : Nat
  deriving DecidableEq, Repr, Inhabited

/-- `DiskHeader` from types.go (256 bytes on disk). -/
structure DiskHeader where
  signatureString : List Nat
  creatorString : List Nat
  tracks : Nat
  sides : Nat
  pad : List Nat
  trackSizeTable : List Nat
  deriving DecidableEq, Repr, Inhabited

/-- `LogicalSector` from types.go. -/
structure LogicalSector where
  info : SectorInfo
  data : List Nat
  deriving DecidableEq, Repr, Inhabited

/-- `LogicalTrack` from types.go. -/
structure LogicalTrack where
  header : TrackHeader
  sectors : List LogicalSector
  deriving DecidableEq, Repr, Inhabited

/-- `DSKFormat` from types.go. -/
inductive DSKFormat where
  | extended : DSKFormat
  | standard : DSKFormat
  deriving DecidableEq, Repr, Inhabited

/-- `DSK` from types.go (the `Specification` field is never set by the
parsers and is omitted). -/
structure DSK where
  format : DSKFormat
  header : DiskHeader
  tracks : List LogicalTrack
  standardTrackSize : Nat
  deriving DecidableEq, Repr, Inhabited

/-- The warnings the parsers print with `fmt.Printf`. -/
inductive Warn where
  | sigMismatch (i : Nat) : Warn
  | shortRead (track sector : Nat) : Warn
  deriving DecidableEq, Repr

/-- The fatal error exits of parser.go and pack.go (one shared type so the
whole unpack/pack pipeline composes). Go runtime panics that the code can
reach are modelled as the two `panic` constructors. -/
inductive Err where
  | tooSmall : Err
  | badSignature (sig : List Nat) : Err
  | headerRead : Err
  | eofAtTrack (i : Nat) : Err
  | trackHeaderRead (i : Nat) : Err
  | sectorInfoRead : Err
  | negativeMakePanic : Err
  | tableIndexPanic : Err
  | invalidTracks (n : Nat) : Err
  | invalidSides (n : Nat) : Err
  | invalidTrackSize (n : Nat) : Err
  | fileTooSmallStd : Err
  | invalidSectorCount (i n : Nat) : Err
  | trackTooSmallStd (i : Nat) : Err
  | invalidSectorSizeN (i n : Nat) : Err
  | sectorTooLarge (i len : Nat) : Err
  | notEnoughData (t r : Nat) : Err
  | packMissingDiskMeta : Err
  | packInvalidCreator : Err
  | packInvalidTracks : Err
  | packInvalidSides : Err
  | packMissingTable : Err
  | packTableTooLarge : Err
  | packTrackTableTooBig : Err
  | packTrackDirMissing (i tn sn : Nat) : Err
  | packTrackMetaRead (i : Nat) : Err
  | packSectorMetaRead : Err
  | packNoPayloadFile (n : Nat) : Err
  | packMultiplePayloadFiles (n : Nat) : Err
  | packReadPayload : Err
  deriving DecidableEq, Repr

/-! ## Header reads (binary.Read with the struct layouts of types.go) -/

/-- `binary.Read` of the 256-byte `DiskHeader` (the caller checks that at
least 256 bytes are available). Offsets: signature 0x00, creator 0x22,
tracks 0x30, sides 0x31, padding 0x32, table 0x34. -/
def readDiskHeader (data : List Nat) : DiskHeader :=
  { signatureString := data.take 34
    creatorString := (data.drop 34).take 14
    tracks := byteAt data 48
    sides := byteAt data 49
    pad := [byteAt data 50, byteAt data 51]
    trackSizeTable := (data.drop 52).take 204 }

/-- `binary.Read` of the 24-byte `TrackHeader` from a track block. -/
def readTrackHeader (td : List Nat) : TrackHeader :=
  { signature := td.take 13
    unused := (td.drop 13).take 3
    trackNum := byteAt td 16
    sideNum := byteAt td 17
    unused2 := [byteAt td 18, byteAt td 19]
    sectorSize := byteAt td 20
    sectorCount := byteAt td 21
    gap3Length := byteAt td 22
    fillerByte := byteAt td 23 }

/-! ## Extended parser (parseExtendedDSK) -/

/-- Two's-complement wrap of an integer to 64 bits (Go `int` arithmetic). -/
def wrap64 (x : Int) : Int := (x + 2 ^ 63) % 2 ^ 64 - 2 ^ 63

/-- Go `1 << n` at type `int` (64-bit): `2^n` below 63, the minimum int64 at
63, and 0 from 64 on. -/
def goShl1 (n : Nat) : Int :=
  if n < 63 then 2 ^ n else if n = 63 then -(2 ^ 63) else 0

/-- The extended parser's sector length: `int(DataLength)`, or, when that is
zero, `128 * (1 << N)` in Go 64-bit int arithmetic. -/
def extSecLen (info : SectorInfo) : Int :=
  if info.dataLength ≠ 0 then (info.dataLength : Int)
  else wrap64 (128 * goShl1 info.n)

/-- The payload length the extended parser allocates (`make([]byte, secLen)`);
meaningful when `extSecLen` is non-negative (otherwise `make` panics). -/
def extSecLenNat (info : SectorInfo) : Nat := (extSecLen info).toNat

/-- "Track-Info" (the prefix the extended parser checks after trimming). -/
def trackInfoTag : List Nat := [84, 114, 97, 99, 107, 45, 73, 110, 102, 111]

/-- `binary.Read` of `sectorCount` 8-byte extended sector descriptors
starting at `pos`; fails (unexpected EOF) when fewer than 8 bytes remain. -/
def readSectorInfosExt (td : List Nat) (pos : Nat) :
    Nat → Except Err (List SectorInfo × Nat)
  | 0 => .ok ([], pos)
  | k + 1 =>
      if pos + 8 ≤ td.length then
        let info : SectorInfo :=
          { c := byteAt td pos, h := byteAt td (pos + 1), r := byteAt td (pos + 2)
            n := byteAt td (pos + 3), fdcStatus1 := byteAt td (pos + 4)
            fdcStatus2 := byteAt td (pos + 5)
            dataLength := byteAt td (pos + 6) + 256 * byteAt td (pos + 7) }
        match readSectorInfosExt td (pos + 8) k with
        | .error e => .error e
        | .ok (infos, p) => .ok (info :: infos, p)
      else .error .sectorInfoRead

/-- The extended parser's sector-payload loop: one `Read` per sector into a
zero-initialised buffer of the computed length (short reads keep the zero
tail); the read warns exactly when the reader is already exhausted. A
negative computed length makes Go's `make` panic. -/
def readPayloadsExt (td : List Nat) (tn : Nat) :
    List SectorInfo → Nat → Except Err (List LogicalSector × List Warn)
  | [], _ => .ok ([], [])
  | info :: rest, pos =>
      let sl := extSecLen info
      if sl < 0 then .error .negativeMakePanic
      else
        let len := sl.toNat
        let payload := readUpTo td pos len
        let w : List Warn := if td.length ≤ pos then [.shortRead tn info.r] else []
        match readPayloadsExt td tn rest (pos + consumed td pos len) with
        | .error e => .error e
        | .ok (secs, ws) => .ok (⟨info, payload⟩ :: secs, w ++ ws)

/-- One extended track block: header, signature warning, descriptor list,
payloads. -/
def extTrack (td : List Nat) (i : Nat) : Except Err (LogicalTrack × List Warn) :=
  if td.length < 24 then .error (.trackHeaderRead i)
  else
    let th := readTrackHeader td
    let sigW : List Warn :=
      if listStarts trackInfoTag (trimRight th.signature [0, 13, 10]) then []
      else [.sigMismatch i]
    match readSectorInfosExt td 24 th.sectorCount with
    | .error e => .error e
    | .ok (infos, pos) =>
        match readPayloadsExt td th.trackNum infos pos with
        | .error e => .error e
        | .ok (secs, ws) => .ok (⟨th, secs⟩, sigW ++ ws)

/-- The extended parser's track loop over position indices: a zero size-table
entry skips the position without advancing the offset; otherwise the track
block is sliced and parsed. Indexing `TrackSizeTable[i]` beyond 204 is a Go
slice-bounds panic. -/
def extLoop (data table : List Nat) (off i cnt : Nat) :
    Except Err (List LogicalTrack × List Warn) :=
  match cnt with
  | 0 => .ok ([], [])
  | c + 1 =>
      if 204 ≤ i then .error .tableIndexPanic
      else
        let tsize := table.getD i 0 * 256
        if tsize = 0 then extLoop data table off (i + 1) c
        else if data.length < off + tsize then .error (.eofAtTrack i)
        else
          match extTrack ((data.drop off).take tsize) i with
          | .error e => .error e
          | .ok (trk, ws1) =>
              match extLoop data table (off + tsize) (i + 1) c with
              | .error e => .error e
              | .ok (trks, ws2) => .ok (trk :: trks, ws1 ++ ws2)

/-- `parseExtendedDSK` from parser.go. -/
def parseExtendedDSK (data : List Nat) : Except Err (DSK × List Warn) :=
  if data.length < 256 then .error .headerRead
  else
    let hdr := readDiskHeader data
    match extLoop data hdr.trackSizeTable 256 0 (hdr.tracks * hdr.sides) with
    | .error e => .error e
    | .ok (trks, ws) => .ok (⟨.extended, hdr, trks, 0⟩, ws)

/-! ## Standard parser (parseStandardDSK) -/

/-- The 12 bytes of "Track-Info\r\n" (the literal the standard parser
compares against the first 13 signature bytes, a length mismatch that makes
the comparison false for every input). -/
def trackInfoSig12 : List Nat := [84, 114, 97, 99, 107, 45, 73, 110, 102, 111, 13, 10]

/-- The standard parser's sector length: `128 * 2^N` with the N = 6 special
case storing only 0x1800 bytes (parser.go lines 312-316; N ≤ 7 is validated
before this is computed). -/
def stdSecLen (n : Nat) : Nat := if n = 6 then 6144 else 128 * 2 ^ n

/-- The unformatted-track heuristic: the first (up to) 100 bytes of the
block all equal the first byte. -/
def uniform100 (td : List Nat) : Bool :=
  match td with
  | [] => true
  | b :: _ => (td.take 100).all (fun x => x == b)

/-- Standard 6-byte sector descriptor reads: a plain `Read` per descriptor,
which fails only when the reader is already exhausted and otherwise keeps
zero bytes for the unread tail. -/
def readSectorInfosStd (td : List Nat) (pos : Nat) :
    Nat → Except Err (List SectorInfo × Nat)
  | 0 => .ok ([], pos)
  | k + 1 =>
      if td.length ≤ pos then .error .sectorInfoRead
      else
        let bs := readUpTo td pos 6
        let info : SectorInfo :=
          { c := byteAt bs 0, h := byteAt bs 1, r := byteAt bs 2
            n := byteAt bs 3, fdcStatus1 := byteAt bs 4, fdcStatus2 := byteAt bs 5
            dataLength := 0 }
        match readSectorInfosStd td (pos + consumed td pos 6) k with
        | .error e => .error e
        | .ok (infos, p) => .ok (info :: infos, p)

/-- The standard parser's payload loop over a reader positioned at 0x100 of
the track block (`td2 = trackData[0x100:]`, `tdLen = len(trackData)`). The
per-sector availability check compares the whole data area after 0x100 (not
the advancing position) against one sector length, exactly as the source
does. Short reads warn and keep the zero tail. -/
def readPayloadsStd (td2 : List Nat) (tdLen tn secLen : Nat) :
    List SectorInfo → Nat → Except Err (List LogicalSector × List Warn)
  | [], _ => .ok ([], [])
  | info :: rest, pos =>
      if tdLen - 256 < secLen then .error (.notEnoughData tn info.r)
      else
        let payload := readUpTo td2 pos secLen
        let w : List Warn :=
          if consumed td2 pos secLen < secLen then [.shortRead tn info.r] else []
        match readPayloadsStd td2 tdLen tn secLen rest (pos + consumed td2 pos secLen) with
        | .error e => .error e
        | .ok (secs, ws) => .ok (⟨info, payload⟩ :: secs, w ++ ws)

/-- One standard track block at position `i`. -/
def stdTrack (td : List Nat) (i sides : Nat) :
    Except Err (LogicalTrack × List Warn) :=
  if td.length < 24 then .error (.trackHeaderRead i)
  else
    let th := readTrackHeader td
    let sigValid := decide (13 ≤ th.signature.length) && th.signature.take 13 == trackInfoSig12
    if !sigValid && uniform100 td then
      .ok (⟨{ signature := List.replicate 13 0, unused := List.replicate 3 0
              trackNum := (i / sides) % 256, sideNum := (i % sides) % 256
              unused2 := List.replicate 2 0, sectorSize := 0, sectorCount := 0
              gap3Length := 0, fillerByte := 0 },
            []⟩, [])
    else
      let ws0 : List Warn := if !sigValid then [.sigMismatch i] else []
      if 64 < th.sectorCount then .error (.invalidSectorCount i th.sectorCount)
      else if th.sectorCount = 0 then .ok (⟨th, []⟩, ws0)
      else
        match readSectorInfosStd td 24 th.sectorCount with
        | .error e => .error e
        | .ok (infos, _) =>
            if td.length < 256 then .error (.trackTooSmallStd i)
            else if 7 < th.sectorSize then .error (.invalidSectorSizeN i th.sectorSize)
            else if 16384 < stdSecLen th.sectorSize then
              .error (.sectorTooLarge i (stdSecLen th.sectorSize))
            else
              match readPayloadsStd (td.drop 256) td.length th.trackNum
                  (stdSecLen th.sectorSize) infos 0 with
              | .error e => .error e
              | .ok (secs, ws) => .ok (⟨th, secs⟩, ws0 ++ ws)

/-- The standard parser's track loop: every position occupies exactly the
fixed track size. -/
def stdLoop (data : List Nat) (ts sides off i : Nat) (cnt : Nat) :
    Except Err (List LogicalTrack × List Warn) :=
  match cnt with
  | 0 => .ok ([], [])
  | c + 1 =>
      if data.length < off + ts then .error (.eofAtTrack i)
      else
        match stdTrack ((data.drop off).take ts) i sides with
        | .error e => .error e
        | .ok (trk, ws1) =>
            match stdLoop data ts sides (off + ts) (i + 1) c with
            | .error e => .error e
            | .ok (trks, ws2) => .ok (trk :: trks, ws1 ++ ws2)

/-- `parseStandardDSK` from parser.go: header, fixed track size, range
validation, file-size validation, track loop. The track size is read by
`binary.LittleEndian.Uint16(data[32:34])` — DECIMAL byte offsets 32-33,
which land inside the 34-byte signature field. (The code's comment intends
the padding field at hex 0x32-0x33, i.e. decimal 50-51, but the slice
indices are decimal; the embedding follows the executed code.) -/
def parseStandardDSK (data : List Nat) : Except Err (DSK × List Warn) :=
  if data.length < 256 then .error .headerRead
  else
    let hdr := readDiskHeader data
    let ts := byteAt data 32 + 256 * byteAt data 33
    if hdr.tracks = 0 ∨ 85 < hdr.tracks then .error (.invalidTracks hdr.tracks)
    else if hdr.sides = 0 ∨ 2 < hdr.sides then .error (.invalidSides hdr.sides)
    else if ts < 256 then .error (.invalidTrackSize ts)
    else if data.length < 256 + hdr.tracks * hdr.sides * ts then .error .fileTooSmallStd
    else
      match stdLoop data ts hdr.sides 256 0 (hdr.tracks * hdr.sides) with
      | .error e => .error e
      | .ok (trks, ws) => .ok (⟨.standard, hdr, trks, ts⟩, ws)

/-! ## Format detection and ParseDSK -/

/-- "EXTENDED". -/
def extendedTag : List Nat := [69, 88, 84, 69, 78, 68, 69, 68]

/-- "MV - CPC". -/
def standardTag : List Nat := [77, 86, 32, 45, 32, 67, 80, 67]

/-- The signature classification of `ParseDSK` (parser.go lines 35-44), a
pure function of the first 22 bytes. -/
def detectSignature (sig : List Nat) : Except Err DSKFormat :=
  if listStarts extendedTag sig then .ok .extended
  else if listStarts standardTag sig then .ok .standard
  else .error (.badSignature sig)

/-- `ParseDSK` from parser.go (after the file has been read into memory):
size gate, signature classification on bytes 0..21, dispatch. -/
def parseDSK (data : List Nat) : Except Err (DSK × List Warn) :=
  if data.length < HeaderSize then .error .tooSmall
  else
    match detectSignature (data.take 22) with
    | .error e => .error e
    | .ok .standard => parseStandardDSK data
    | .ok .extended => parseExtendedDSK data

/-! ## Filenames (fmt.Sprintf patterns) and directory model

The unpack/pack collaborators use the filesystem and JSON; both are modelled
at the level the spec fixes them: filenames are byte strings, directory
listings are sorted by name (`os.ReadDir`), and the structured metadata
files are records (the spec's opaque structured-record collaborator with
stable primitive round-trips). -/

/-- Decimal digit characters of `n` (`fmt %d`), by structural fuel. -/
def natDecF (fuel n : Nat) : List Nat :=
  match fuel with
  | 0 => [48 + n % 10]
  | f + 1 => if n < 10 then [48 + n] else natDecF f (n / 10) ++ [48 + n % 10]

/-- `fmt.Sprintf("%d", n)`. -/
def natDec (n : Nat) : List Nat := natDecF n n

/-- `fmt.Sprintf("%02d", n)`: zero-padded to at least two digits. -/
def natDec02 (n : Nat) : List Nat := if n < 10 then 48 :: natDec n else natDec n

/-- Byte-wise lexicographic order on names (Go string `<`). -/
def lexLt : List Nat → List Nat → Bool
  | [], [] => false
  | [], _ :: _ => true
  | _ :: _, [] => false
  | a :: as, b :: bs => if a < b then true else if b < a then false else lexLt as bs

/-- Insertion into a name list sorted by `lexLt`. -/
def insertSorted (x : List Nat) : List (List Nat) → List (List Nat)
  | [] => [x]
  | y :: ys => if lexLt x y then x :: y :: ys else y :: insertSorted x ys

/-- `os.ReadDir` name order: sort names lexicographically. -/
def sortNames : List (List Nat) → List (List Nat)
  | [] => []
  | x :: xs => insertSorted x (sortNames xs)

/-- "sector-" ++ digits of `n`. -/
def secBase (n : Nat) : List Nat := [115, 101, 99, 116, 111, 114, 45] ++ natDec n

/-- "sector-N.bin". -/
def binName (n : Nat) : List Nat := secBase n ++ [46, 98, 105, 110]

/-- "sector-N.hex". -/
def hexName (n : Nat) : List Nat := secBase n ++ [46, 104, 101, 120]

/-- "sector-N.quoted". -/
def quotedName (n : Nat) : List Nat := secBase n ++ [46, 113, 117, 111, 116, 101, 100]

/-- "sector-N.asciihex". -/
def asciihexName (n : Nat) : List Nat :=
  secBase n ++ [46, 97, 115, 99, 105, 105, 104, 101, 120]

/-- "sector-N.meta". -/
def secMetaName (n : Nat) : List Nat := secBase n ++ [46, 109, 101, 116, 97]

/-- "track.meta". -/
def trackMetaName : List Nat := [116, 114, 97, 99, 107, 46, 109, 101, 116, 97]

/-- "track-%02d" for position `i`. -/
def trackDirName (i : Nat) : List Nat := [116, 114, 97, 99, 107, 45] ++ natDec02 i

/-- "track-%02d-side-%d". -/
def trackSideDirName (tn sn : Nat) : List Nat :=
  [116, 114, 97, 99, 107, 45] ++ natDec02 tn ++ [45, 115, 105, 100, 101, 45] ++ natDec sn

/-- Structured sector metadata record (sector-N.meta contents). -/
structure SectorMeta where
  cylinder : Nat
  head : Nat
  sectorId : Nat
  sectorSize : Nat
  fdcStatus1 : Nat
  fdcStatus2 : Nat
  dataLength : Nat
  deriving DecidableEq, Repr, Inhabited

/-- Structured track metadata record (track.meta contents). -/
structure TrackMeta where
  unused : List Nat
  trackNumber : Nat
  sideNumber : Nat
  unused2 : List Nat
  sectorSize : Nat
  sectorCount : Nat
  gap3Length : Nat
  fillerByte : Nat
  formatted : Bool
  deriving DecidableEq, Repr, Inhabited

/-- Structured disk metadata record (disk-image.meta contents). `Option`
fields model the JSON type assertions of pack.go (a missing or wrongly
typed field is `none`). -/
structure DiskMeta where
  creator : Option (List Nat)
  tracks : Option Nat
  sides : Option Nat
  format : Option (List Nat)
  trackSizeTable : Option (List Nat)
  trackSize : Option Nat
  deriving DecidableEq, Repr, Inhabited

/-- A file in a track directory: a payload file's raw bytes, or a structured
record. -/
inductive FileC where
  | bytes (bs : List Nat) : FileC
  | smeta (m : SectorMeta) : FileC
  | tmeta (m : TrackMeta) : FileC
  deriving DecidableEq, Repr, Inhabited

/-- A track directory: association of names to contents (insertion order;
`os.ReadDir` sorts the names on listing). -/
structure TrackDir where
  files : List (List Nat × FileC)
  deriving DecidableEq, Repr, Inhabited

/-- The unpacked root directory. -/
structure Root where
  diskMeta : Option DiskMeta
  trackDirs : List (List Nat × TrackDir)
  deriving DecidableEq, Repr, Inhabited

/-- Look a name up in a file list. -/
def fsGet (files : List (List Nat × FileC)) (name : List Nat) : Option FileC :=
  match files.find? (fun p => p.1 == name) with
  | some p => some p.2
  | none => none

/-- Write (create or overwrite) a name in a file list. -/
def fsWrite (files : List (List Nat × FileC)) (name : List Nat) (c : FileC) :
    List (List Nat × FileC) :=
  if (files.find? (fun p => p.1 == name)).isSome then
    files.map (fun p => if p.1 == name then (name, c) else p)
  else files ++ [(name, c)]

/-- Look a directory up in the root (`os.Stat` on the directory name). -/
def dirGet (root : Root) (name : List Nat) : Option TrackDir :=
  match root.trackDirs.find? (fun p => p.1 == name) with
  | some p => some p.2
  | none => none

/-! ## Formatter selection (formatters.go) -/

/-- The four payload encodings. -/
inductive PFormat where
  | binary : PFormat
  | hex : PFormat
  | quoted : PFormat
  | asciihex : PFormat
  deriving DecidableEq, Repr, Inhabited

/-- Payload file name for a format (the four candidate paths of
`DetectFormatFromFile`). -/
def payloadName (f : PFormat) (n : Nat) : List Nat :=
  match f with
  | .binary => binName n
  | .hex => hexName n
  | .quoted => quotedName n
  | .asciihex => asciihexName n

/-- `os.Stat` existence check for one of the four candidate payload files. -/
def payloadExists (dir : TrackDir) (n : Nat) (f : PFormat) : Bool :=
  (fsGet dir.files (payloadName f n)).isSome

/-- The `existingFiles` list `DetectFormatFromFile` accumulates, in its fixed
bin/hex/quoted/asciihex probe order. -/
def existingList (dir : TrackDir) (n : Nat) : List PFormat :=
  (if payloadExists dir n .binary then [.binary] else []) ++
  (if payloadExists dir n .hex then [.hex] else []) ++
  (if payloadExists dir n .quoted then [.quoted] else []) ++
  (if payloadExists dir n .asciihex then [.asciihex] else [])

/-- `DetectFormatFromFile` from formatters.go: check which of the four
payload files exist; zero or more than one is an error; otherwise the first
(unique) one is selected together with its path. -/
def DetectFormatFromFile (dir : TrackDir) (sectorNum : Nat) :
    Except Err (PFormat × List Nat) :=
  match existingList dir sectorNum with
  | [] => .error (.packNoPayloadFile sectorNum)
  | [f] => .ok (f, payloadName f sectorNum)
  | _ => .error (.packMultiplePayloadFiles sectorNum)

/-- The number of the four candidate payload files that exist. -/
def numPayloadFiles (dir : TrackDir) (n : Nat) : Nat := (existingList dir n).length

/-- Lowercase hex digit character (`hex.EncodeToString`). -/
def hexDigitL (d : Nat) : Nat := if d < 10 then 48 + d else 87 + d

/-- `hex.EncodeToString`: two lowercase digits per byte. -/
def hexEncode (bs : List Nat) : List Nat :=
  bs.flatMap (fun b => [hexDigitL (b / 16), hexDigitL (b % 16)])

/-- `hex.DecodeString`: strict pairs of hex digits. -/
def hexDecode : List Nat → Except Err (List Nat)
  | [] => .ok []
  | [_] => .error .packReadPayload
  | c0 :: c1 :: rest =>
      if isHexDigit c0 && isHexDigit c1 then
        match hexDecode rest with
        | .error e => .error e
        | .ok bs => .ok ((hexVal c0 * 16 + hexVal c1) :: bs)
      else .error .packReadPayload

/-- The writer side of `GetFormatWriter`: encode payload bytes into file
bytes. Quoted-printable is Go's `mime/quotedprintable` (an external library
this development does not re-verify; no claim depends on its coding), kept
abstract as the identity on bytes. -/
def encodeFor (f : PFormat) (bs : List Nat) : List Nat :=
  match f with
  | .binary => bs
  | .hex => hexEncode bs
  | .quoted => bs
  | .asciihex => encodeASCIIHex bs

/-- The reader side of `GetFormatReader`: decode file bytes into payload
bytes (same remark about quoted-printable as in `encodeFor`). -/
def readFor (f : PFormat) (bs : List Nat) : Except Err (List Nat) :=
  match f with
  | .binary => .ok bs
  | .hex => hexDecode bs
  | .quoted => .ok bs
  | .asciihex =>
      match decodeASCIIHex bs with
      | .error _ => .error .packReadPayload
      | .ok r => .ok r

/-! ## Unpack (unpack.go), as the directory structure it produces -/

/-- "extended". -/
def strExtended : List Nat := [101, 120, 116, 101, 110, 100, 101, 100]

/-- "standard". -/
def strStandard : List Nat := [115, 116, 97, 110, 100, 97, 114, 100]

/-- `bytes.Trim(s, "\x00")`: strip NULs from both ends. -/
def trimNulBoth (l : List Nat) : List Nat :=
  ((l.dropWhile (fun b => b == 0)).reverse.dropWhile (fun b => b == 0)).reverse

/-- The files Unpack writes into the directory of track position `i`. -/
def unpackTrackDir (sides i : Nat) (fmtW : PFormat) (tOpt : Option LogicalTrack) :
    TrackDir :=
  let tm : TrackMeta :=
    match tOpt with
    | some t =>
        { unused := t.header.unused, trackNumber := t.header.trackNum
          sideNumber := t.header.sideNum, unused2 := t.header.unused2
          sectorSize := t.header.sectorSize, sectorCount := t.header.sectorCount
          gap3Length := t.header.gap3Length, fillerByte := t.header.fillerByte
          formatted := true }
    | none =>
        { unused := [0, 0, 0], trackNumber := (i / sides) % 256
          sideNumber := (i % sides) % 256, unused2 := [0, 0]
          sectorSize := 0, sectorCount := 0, gap3Length := 0, fillerByte := 0
          formatted := false }
  let files0 := fsWrite [] trackMetaName (.tmeta tm)
  let files :=
    match tOpt with
    | none => files0
    | some t =>
        t.sectors.foldl (fun fs sec =>
          let num := sec.info.r
          let fs1 := fsWrite fs (payloadName fmtW num) (.bytes (encodeFor fmtW sec.data))
          fsWrite fs1 (secMetaName num)
            (.smeta { cylinder := sec.info.c, head := sec.info.h
                      sectorId := sec.info.r, sectorSize := sec.info.n
                      fdcStatus1 := sec.info.fdcStatus1
                      fdcStatus2 := sec.info.fdcStatus2
                      dataLength := sec.info.dataLength })) files0
  ⟨files⟩

/-- `Unpack` from unpack.go: the directory tree it produces for a parsed
DSK (a directory is created for every position, formatted or not; the track
for a position is found through the `trackNum*sides + sideNum` map, last
entry winning). -/
def Unpack (d : DSK) (fmtW : PFormat) : Root :=
  let sides := d.header.sides
  let dm : DiskMeta :=
    { creator := some (trimNulBoth d.header.creatorString)
      tracks := some d.header.tracks
      sides := some sides
      format := some (if d.format == .standard then strStandard else strExtended)
      trackSizeTable :=
        if d.format == .standard then none else some d.header.trackSizeTable
      trackSize := if d.format == .standard then some d.standardTrackSize else none }
  let totalBlocks := d.header.tracks * sides
  let dirs := (List.range totalBlocks).map (fun i =>
    let name := if 1 < sides then trackSideDirName (i / sides) (i % sides)
                else trackDirName i
    let tOpt := (d.tracks.filter
      (fun t => t.header.trackNum * sides + t.header.sideNum == i)).getLast?
    (name, unpackTrackDir sides i fmtW tOpt))
  { diskMeta := some dm, trackDirs := dirs }

/-! ## Pack (pack.go) -/

/-- The extended signature literal "EXTENDED CPC DSK File\r\nDisk-Info\r\n"
(exactly 34 bytes). -/
def packExtendedSig34 : List Nat :=
  [69, 88, 84, 69, 78, 68, 69, 68, 32, 67, 80, 67, 32, 68, 83, 75, 32, 70,
   105, 108, 101, 13, 10, 68, 105, 115, 107, 45, 73, 110, 102, 111, 13, 10]

/-- "MV - CPCEMU Disk-File" zero-padded to 34 bytes (the standard-format
signature pack.go writes). -/
def packStandardSig34 : List Nat :=
  [77, 86, 32, 45, 32, 67, 80, 67, 69, 77, 85, 32, 68, 105, 115, 107, 45, 70,
   105, 108, 101] ++ List.replicate 13 0

/-- Go `copy` of a byte list into a fresh zero array of length `len`. -/
def padTo (len : Nat) (l : List Nat) : List Nat :=
  l.take len ++ List.replicate (len - (l.take len).length) 0

/-- Track header built by pack.go from track.meta: fixed "Track-Info\r\n"
signature, metadata fields truncated to bytes, over-long arrays cut at the
field widths. -/
def mkPackTrackHeader (tm : TrackMeta) : TrackHeader :=
  { signature := padTo 13 trackInfoSig12
    unused := padTo 3 (tm.unused.map (· % 256))
    trackNum := tm.trackNumber % 256
    sideNum := tm.sideNumber % 256
    unused2 := padTo 2 (tm.unused2.map (· % 256))
    sectorSize := tm.sectorSize % 256
    sectorCount := tm.sectorCount % 256
    gap3Length := tm.gap3Length % 256
    fillerByte := tm.fillerByte % 256 }

/-- `binary.Write` of a `TrackHeader` (24 bytes). -/
def trackHeaderBytes (th : TrackHeader) : List Nat :=
  padTo 13 th.signature ++ padTo 3 th.unused ++ [th.trackNum % 256, th.sideNum % 256] ++
  padTo 2 th.unused2 ++
  [th.sectorSize % 256, th.sectorCount % 256, th.gap3Length % 256, th.fillerByte % 256]

/-- `binary.Write` of a `SectorInfo` (8 bytes, DataLength little-endian). -/
def sectorInfoBytes (si : SectorInfo) : List Nat :=
  [si.c % 256, si.h % 256, si.r % 256, si.n % 256, si.fdcStatus1 % 256,
   si.fdcStatus2 % 256, si.dataLength % 256, si.dataLength / 256 % 256]

/-- Descriptor built by pack.go from a sector-N.meta record. -/
def mkPackSectorInfo (m : SectorMeta) : SectorInfo :=
  { c := m.cylinder % 256, h := m.head % 256, r := m.sectorId % 256
    n := m.sectorSize % 256, fdcStatus1 := m.fdcStatus1 % 256
    fdcStatus2 := m.fdcStatus2 % 256, dataLength := m.dataLength % 65536 }

/-- `fmt.Sscanf("%d", &uint8)` on the trimmed middle of a file name: leading
decimal digits, value must fit in a byte, otherwise the entry is skipped. -/
def parseUint8Dec (l : List Nat) : Option Nat :=
  let ds := l.takeWhile (fun b => 48 ≤ b && b ≤ 57)
  if ds.isEmpty then none
  else
    let v := ds.foldl (fun a d => a * 10 + (d - 48)) 0
    if v ≤ 255 then some v else none

/-- Suffix test on names. -/
def listEnds (suf l : List Nat) : Bool := listStarts suf.reverse l.reverse

/-- Set a key in the sector-data map (later assignments overwrite). -/
def mapSet (m : List (Nat × List Nat)) (k : Nat) (v : List Nat) :
    List (Nat × List Nat) :=
  if (m.find? (fun p => p.1 == k)).isSome then
    m.map (fun p => if p.1 == k then (k, v) else p)
  else m ++ [(k, v)]

/-- `sectorDataMap[k]` (a missing key is Go's nil slice: zero bytes). -/
def mapGetD (m : List (Nat × List Nat)) (k : Nat) : List Nat :=
  match m.find? (fun p => p.1 == k) with
  | some p => p.2
  | none => []

/-- The sector scan of pack.go: walk the sorted directory entries in order;
each name of shape sector-N.meta (N parsing as a byte) contributes a
descriptor from its metadata record and a payload, found by
`DetectFormatFromFile` and decoded with the selected reader, keyed by the
file-name number. -/
def packSectors (dir : TrackDir) :
    List (List Nat) → List SectorInfo → List (Nat × List Nat) →
    Except Err (List SectorInfo × List (Nat × List Nat))
  | [], infos, dmap => .ok (infos, dmap)
  | name :: rest, infos, dmap =>
      if listStarts [115, 101, 99, 116, 111, 114, 45] name &&
         listEnds [46, 109, 101, 116, 97] name then
        match parseUint8Dec ((name.drop 7).take (name.length - 12)) with
        | none => packSectors dir rest infos dmap
        | some num =>
            match fsGet dir.files name with
            | some (.smeta m) =>
                match DetectFormatFromFile dir num with
                | .error e => .error e
                | .ok (fmt, path) =>
                    match fsGet dir.files path with
                    | some (.bytes bs) =>
                        match readFor fmt bs with
                        | .error e => .error e
                        | .ok payload =>
                            packSectors dir rest (infos ++ [mkPackSectorInfo m])
                              (mapSet dmap num payload)
                    | _ => .error .packReadPayload
            | _ => .error .packSectorMetaRead
      else packSectors dir rest infos dmap

/-- The directory pack.go settles on for position `i`: "track-%02d" of the
position, and when that does not exist and there are two sides,
"track-%02d-side-%d" of cylinder/head. -/
def packFindDir (root : Root) (sides i : Nat) : Option TrackDir :=
  match dirGet root (trackDirName i) with
  | some d => some d
  | none =>
      if 1 < sides then dirGet root (trackSideDirName (i / sides) (i % sides))
      else none

/-- Sum of the first `i` track-size-table entries. -/
def sumTable (table : List Nat) (i : Nat) : Nat := (table.take i).foldl (· + ·) 0

/-- The track loop of pack.go. A missing directory is fatal only for a
nonzero size-table entry; a zero entry is skipped in all cases. After a
track's header, descriptors and payloads are written, the block is padded
with the filler byte up to its declared size (computed against the
table-derived track start position). -/
def packLoop (root : Root) (table204 : List Nat) (sides : Nat) :
    List Nat → Nat → Nat → Except Err (List Nat)
  | out, _, 0 => .ok out
  | out, i, c + 1 =>
      let tsize := table204.getD i 0 * 256
      match packFindDir root sides i with
      | none =>
          if tsize = 0 then packLoop root table204 sides out (i + 1) c
          else .error (.packTrackDirMissing i (i / sides) (i % sides))
      | some dir =>
          if tsize = 0 then packLoop root table204 sides out (i + 1) c
          else
            match fsGet dir.files trackMetaName with
            | some (.tmeta tm) =>
                let th := mkPackTrackHeader tm
                match packSectors dir (sortNames (dir.files.map (fun p => p.1))) [] [] with
                | .error e => .error e
                | .ok (infos, dmap) =>
                    let body := trackHeaderBytes th ++
                      infos.flatMap sectorInfoBytes ++
                      infos.flatMap (fun si => mapGetD dmap si.r)
                    let out2 := out ++ body
                    let trackStart : Int := 256 + (sumTable table204 i : Int) * 256
                    let bytesW : Int := (out2.length : Int) - trackStart
                    let out3 :=
                      if bytesW < (tsize : Int) then
                        out2 ++ List.replicate ((tsize : Int) - bytesW).toNat th.fillerByte
                      else out2
                    packLoop root table204 sides out3 (i + 1) c
            | _ => .error (.packTrackMetaRead i)

/-- The 204-byte `header.TrackSizeTable` pack.go builds: the metadata values
truncated to bytes, zero-extended. -/
def packTable204 (values : List Nat) : List Nat :=
  values.map (· % 256) ++ List.replicate (204 - values.length) 0

/-- `Pack` from pack.go: header reconstruction from disk-image.meta, then
the track loop. -/
def Pack (root : Root) : Except Err (List Nat) :=
  match root.diskMeta with
  | none => .error .packMissingDiskMeta
  | some dm =>
      let sigBytes :=
        if dm.format == some strStandard then packStandardSig34 else packExtendedSig34
      match dm.creator with
      | none => .error .packInvalidCreator
      | some creator =>
          match dm.tracks with
          | none => .error .packInvalidTracks
          | some tracksRaw =>
              match dm.sides with
              | none => .error .packInvalidSides
              | some sidesRaw =>
                  match dm.trackSizeTable with
                  | none => .error .packMissingTable
                  | some values =>
                      let tracks := tracksRaw % 256
                      let sides := sidesRaw % 256
                      if 204 < values.length then .error .packTableTooLarge
                      else
                        let table204 := packTable204 values
                        let trackTableSize := tracks * sides
                        if 204 < trackTableSize then .error .packTrackTableTooBig
                        else
                          let hdrBytes := sigBytes ++ padTo 14 (creator.map (· % 256)) ++
                            [tracks, sides] ++ [0, 0] ++ table204.take trackTableSize
                          let bytesWritten := 52 + trackTableSize
                          let out0 := hdrBytes ++
                            (if bytesWritten < 256 then
                              List.replicate (256 - bytesWritten) 0 else [])
                          packLoop root table204 sides out0 0 trackTableSize

/-! ## Concrete containers and directories used by the claim checks -/

/-- "Test" padded to the 14-byte creator field. -/
def wCreator14 : List Nat := [84, 101, 115, 116] ++ List.replicate 10 0

/-- "Track-Info\r\n" plus one NUL: the 13 signature bytes of a track block. -/
def wTrkSig13 : List Nat := [84, 114, 97, 99, 107, 45, 73, 110, 102, 111, 13, 10, 0]

/-- Extended track block with two sectors, IDs 2 and 10, each with explicit
data length 1 (payloads 0xAA and 0xBB), padded to 256 bytes with the filler
0xE5. -/
def c1Track : List Nat :=
  wTrkSig13 ++ [0, 0, 0] ++ [0, 0] ++ [0, 0] ++ [2, 2, 78, 229] ++
  [0, 0, 2, 2, 0, 0, 1, 0] ++ [0, 0, 10, 2, 0, 0, 1, 0] ++
  [170] ++ [187] ++ List.replicate 214 229

/-- Extended container, one track, one side, sector IDs 2 then 10. -/
def c1Input : List Nat :=
  packExtendedSig34 ++ wCreator14 ++ [1, 1] ++ [0, 0] ++
  (1 :: List.replicate 203 0) ++ c1Track

/-- Sector-ID lists per track. -/
def ridsOf (d : DSK) : List (List Nat) :=
  d.tracks.map (fun t => t.sectors.map (fun s => s.info.r))

/-- Payloads per track. -/
def paysOf (d : DSK) : List (List (List Nat)) :=
  d.tracks.map (fun t => t.sectors.map (fun s => s.data))

/-- The parse / unpack / pack / re-parse pipeline on `c1Input`, observing
sector-ID order and payloads before and after. -/
def c1Pipeline :
    Except Err ((List (List Nat) × List (List (List Nat))) ×
                (List (List Nat) × List (List (List Nat)))) :=
  match parseDSK c1Input with
  | .error e => .error e
  | .ok (d, _) =>
      match Pack (Unpack d .binary) with
      | .error e => .error e
      | .ok bs =>
          match parseDSK bs with
          | .error e => .error e
          | .ok (d2, _) => .ok ((ridsOf d, paysOf d), (ridsOf d2, paysOf d2))

/-- The ASCII/Hex round-trip failing input: a run of four 0x07 followed by
0x00. -/
def c2Input : List Nat := [7, 7, 7, 7, 0]

/-- A 22-byte buffer with no recognised signature. -/
def c4CexInput : List Nat := List.replicate 22 65

/-- A 256-byte buffer starting with "EXTENDED". -/
def c4WInput : List Nat := packExtendedSig34 ++ List.replicate 222 0

/-- Extended track block with one sector of size code N = 60 and explicit
data length 0. -/
def c5CexTrack : List Nat :=
  wTrkSig13 ++ [0, 0, 0] ++ [0, 0] ++ [0, 0] ++ [2, 1, 78, 229] ++
  [0, 0, 1, 60, 0, 0, 0, 0] ++ List.replicate 224 229

/-- Extended container whose single sector declares N = 60, DataLength 0. -/
def c5CexInput : List Nat :=
  packExtendedSig34 ++ wCreator14 ++ [1, 1] ++ [0, 0] ++
  (1 :: List.replicate 203 0) ++ c5CexTrack

/-- First 0x100 bytes of the N = 6 standard track block: header with
sector-size code 6, one 6-byte descriptor, zero gap. -/
def c6TrackPre : List Nat :=
  wTrkSig13 ++ [0, 0, 0] ++ [0, 0] ++ [0, 0] ++ [6, 1, 78, 229] ++
  [0, 0, 1, 6, 0, 0] ++ List.replicate 226 0

/-- Standard track block, size 0x1900: sector-size code 6, one sector,
payload area 0x1800 bytes of 0xAB after the 0x100-byte info block. -/
def c6Track : List Nat := c6TrackPre ++ List.replicate 6144 171

/-- A 34-byte "MV - CPCEMU Disk-File" signature whose final two bytes (the
DECIMAL offsets 32-33 that parser.go actually reads as the fixed track
size) carry the little-endian value `lo + 256*hi`. -/
def stdSigWithTS (lo hi : Nat) : List Nat :=
  [77, 86, 32, 45, 32, 67, 80, 67, 69, 77, 85, 32, 68, 105, 115, 107, 45, 70,
   105, 108, 101] ++ List.replicate 11 0 ++ [lo, hi]

/-- The 256-byte header of the N = 6 standard container: track size 0x1900
encoded at decimal bytes 32-33 (where the program reads it). -/
def c6Hdr256 : List Nat :=
  stdSigWithTS 0 25 ++ wCreator14 ++ [1, 1] ++ [0, 0] ++ List.replicate 204 0

/-- Standard container with fixed track size 0x1900 and one N = 6 track. -/
def c6Input : List Nat := c6Hdr256 ++ c6Track

/-- Standard container with one track block consisting of 256 identical
bytes (0xE5): the unformatted-track heuristic case. Its track size 0x100
sits at decimal bytes 32-33; bytes 50-51 (hex 0x32-0x33) are zero. -/
def c7Input : List Nat :=
  stdSigWithTS 0 1 ++ wCreator14 ++ [1, 1] ++ [0, 0] ++
  List.replicate 204 0 ++ List.replicate 256 229

/-- Standard container that satisfies every bound of claim C8 as written —
track count 1, side count 1, and value 0x100 at the hex offsets 0x32-0x33
(bytes 50-51) — while the bytes the program actually reads (decimal 32-33,
the tail of the signature field) are zero. -/
def c8ClaimValid : List Nat :=
  packStandardSig34 ++ wCreator14 ++ [1, 1] ++ [0, 1] ++
  List.replicate 204 0 ++ List.replicate 256 0

/-- A track directory holding exactly one payload file for sector 5. -/
def c9Dir : TrackDir := ⟨[(binName 5, .bytes [1, 2, 3])]⟩

/-- A short (34-byte) buffer that nevertheless starts with "EXTENDED". -/
def c10Input : List Nat := packExtendedSig34

/-- track.meta record of an unformatted position. -/
def c3TmEmpty : TrackMeta := ⟨[0, 0, 0], 0, 0, [0, 0], 0, 0, 0, 0, false⟩

/-- Pack input whose only size-table entry is 0 while the corresponding
track directory exists and is non-empty. -/
def c3CexRoot : Root :=
  { diskMeta := some
      { creator := some [84], tracks := some 1, sides := some 1
        format := some strExtended, trackSizeTable := some [0], trackSize := none }
    trackDirs := [(trackDirName 0, ⟨[(trackMetaName, .tmeta c3TmEmpty)]⟩)] }

/-- track.meta record of a one-sector formatted track. -/
def c3WTm : TrackMeta := ⟨[0, 0, 0], 0, 0, [0, 0], 2, 1, 78, 229, true⟩

/-- sector-0.meta record with explicit data length 1. -/
def c3WSm : SectorMeta := ⟨0, 0, 0, 2, 0, 0, 1⟩

/-- Pack input with one nonzero size-table entry and a complete directory
for it. -/
def c3WRoot : Root :=
  { diskMeta := some
      { creator := some [84], tracks := some 1, sides := some 1
        format := some strExtended, trackSizeTable := some [1], trackSize := none }
    trackDirs := [(trackDirName 0,
      ⟨[(trackMetaName, .tmeta c3WTm), (secMetaName 0, .smeta c3WSm),
        (binName 0, .bytes [170])]⟩)] }

/-- The DSK parsed from `c1Input` (extended). -/
def c5ExtDsk : DSK :=
  match parseExtendedDSK c1Input with
  | .ok p => p.1
  | .error _ => default

/-- The warnings of that parse. -/
def c5ExtWs : List Warn :=
  match parseExtendedDSK c1Input with
  | .ok p => p.2
  | .error _ => []

/-- Its first track and first sector. -/
def c5ExtTrk : LogicalTrack := c5ExtDsk.tracks.getD 0 default

/-- First sector of `c5ExtTrk`. -/
def c5ExtSec : LogicalSector := c5ExtTrk.sectors.getD 0 default

/-- The descriptor the parser reads from the N = 6 track. -/
def c6Info : SectorInfo := ⟨0, 0, 1, 6, 0, 0, 0⟩

/-- The track header the parser reads from the N = 6 track. -/
def c6Th : TrackHeader := ⟨wTrkSig13, [0, 0, 0], 0, 0, [0, 0], 6, 1, 78, 229⟩

/-- The sector the parser produces for the N = 6 track. -/
def c6Sec : LogicalSector := ⟨c6Info, List.replicate 6144 171⟩

/-- The track the parser produces for the N = 6 container. -/
def c6Trk : LogicalTrack := ⟨c6Th, [c6Sec]⟩

/-- The disk header of the N = 6 container. -/
def c6Hdr : DiskHeader :=
  ⟨stdSigWithTS 0 25, wCreator14, 1, 1, [0, 0], List.replicate 204 0⟩

/-- The model the standard parser produces for `c6Input`. -/
def c6Dsk : DSK := ⟨.standard, c6Hdr, [c6Trk], 6400⟩

/-- The DSK parsed from `c7Input` (standard). -/
def c7Dsk : DSK :=
  match parseStandardDSK c7Input with
  | .ok p => p.1
  | .error _ => default

/-- The warnings of that parse. -/
def c7Ws : List Warn :=
  match parseStandardDSK c7Input with
  | .ok p => p.2
  | .error _ => []

/-- The result bytes of packing `c3WRoot`. -/
def c3WOut : List Nat :=
  match Pack c3WRoot with
  | .ok bs => bs
  | .error _ => []

/-! ## Helper lemmas -/

set_option maxRecDepth 40000

theorem readUpTo_length (td : List Nat) (pos n : Nat) :
    (readUpTo td pos n).length = n := by
  simp only [readUpTo, List.length_append, List.length_replicate, List.length_take,
    List.length_drop]
  omega

theorem listStarts_take_of_le (p : List Nat) :
    ∀ (l : List Nat) (n : Nat), p.length ≤ n →
      listStarts p (l.take n) = listStarts p l := by
  induction p with
  | nil => intro l n _; cases l <;> cases n <;> simp [listStarts]
  | cons a as ih =>
      intro l n h
      cases l with
      | nil => simp
      | cons b bs =>
          cases n with
          | zero => simp at h
          | succ m =>
              simp only [List.take_succ_cons, listStarts]
              rw [ih bs m (by simpa using h)]

theorem std_not_ext (l : List Nat) :
    listStarts standardTag l = true → listStarts extendedTag l = false := by
  cases l with
  | nil => simp [standardTag, listStarts]
  | cons b bs =>
      simp only [standardTag, extendedTag, listStarts, Bool.and_eq_true, beq_iff_eq]
      rintro ⟨rfl, -⟩
      simp

/-! ## Claim C1 -/

/-- C1: parse ∘ assemble is claimed to be the identity on self-produced
Extended models; evaluating the parse / unpack / pack / re-parse pipeline on
a container whose track stores sector IDs 2 and 10 (in that order) shows the
reassembled container comes back with the descriptors and payloads in the
order 10, 2 — `Pack` scans sector metadata files in lexicographic filename
order, and "sector-10.meta" sorts before "sector-2.meta". The claim (and the
spec's own order-preservation requirement) fails on this input. -/
theorem C1_roundtrip_reorders_sectors :
    c1Pipeline = .ok (([[2, 10]], [[[170], [187]]]), ([[10, 2]], [[[187], [170]]]))
    ∧ ([[2, 10]] : List (List Nat)) ≠ [[10, 2]] :=
  ⟨by rfl, by decide⟩

/-! ## Claim C2 -/

/-- C2: decode ∘ encode is claimed to be the identity on every byte
sequence; on [7,7,7,7,0] the encoder emits the run token "07*4" followed by
the hex pair "00", and the decoder greedily parses the run count through the
following hex digits ("400" = 1024), returning 1024 bytes of 0x07 instead of
the original five bytes. -/
theorem C2_roundtrip_fails :
    decodeASCIIHex (encodeASCIIHex c2Input) = .ok (List.replicate 1024 7)
    ∧ List.replicate 1024 7 ≠ c2Input :=
  ⟨by rfl, by decide⟩

/-! ## Claim C4 -/

/-- C4 counterexample: a 22-byte buffer with no recognised tag is rejected
by `ParseDSK` with the too-small error, not with the unrecognised-signature
error the claim promises for every buffer of at least 22 bytes. -/
theorem C4_cex :
    c4CexInput.length = 22
    ∧ parseDSK c4CexInput = .error .tooSmall
    ∧ Err.tooSmall ≠ Err.badSignature (c4CexInput.take 22) :=
  ⟨by decide, by rfl, by decide⟩

/-- C4 (amended to buffers of at least 256 bytes): classification is
Extended exactly when the buffer starts with "EXTENDED", Standard exactly
when it starts with "MV - CPC", and otherwise `ParseDSK` fails with the
signature error carrying the offending 22 bytes; the classification is the
pure function `detectSignature` of the first 22 bytes. -/
theorem C4_detection (data : List Nat) (h : 256 ≤ data.length) :
    (detectSignature (data.take 22) = .ok .extended ↔
      listStarts extendedTag data = true)
    ∧ (detectSignature (data.take 22) = .ok .standard ↔
      listStarts standardTag data = true)
    ∧ (listStarts extendedTag data = false → listStarts standardTag data = false →
        parseDSK data = .error (.badSignature (data.take 22))) := by
  have hext : listStarts extendedTag (data.take 22) = listStarts extendedTag data :=
    listStarts_take_of_le _ _ _ (by simp [extendedTag])
  have hstd : listStarts standardTag (data.take 22) = listStarts standardTag data :=
    listStarts_take_of_le _ _ _ (by simp [standardTag])
  have hlen : ¬ data.length < HeaderSize := by simp [HeaderSize]; omega
  cases hE : listStarts extendedTag data with
  | true =>
      have hS : listStarts standardTag data = false := by
        cases hS : listStarts standardTag data with
        | true => exact absurd hE (by simp [std_not_ext data hS])
        | false => rfl
      refine ⟨by simp [detectSignature, hext, hE], ?_, by simp [hE]⟩
      simp [detectSignature, hext, hE, hS]
  | false =>
      cases hS : listStarts standardTag data with
      | true => exact ⟨by simp [detectSignature, hext, hstd, hE, hS], by
          simp [detectSignature, hext, hstd, hE, hS], by simp [hS]⟩
      | false =>
          refine ⟨by simp [detectSignature, hext, hstd, hE, hS],
            by simp [detectSignature, hext, hstd, hE, hS], fun _ _ => ?_⟩
          simp [parseDSK, hlen, detectSignature, hext, hstd, hE, hS]

/-- C4 witness: a concrete tagged 256-byte buffer classifies as Extended. -/
theorem C4_witness :
    detectSignature (c4WInput.take 22) = .ok .extended :=
  (C4_detection c4WInput (by decide)).1.mpr (by decide)

/-! ## Claim C9 -/

/-- C9: payload-file detection fails when none of the four payload files
exists and when more than one exists, and succeeds — selecting the unique
encoding and its path — exactly when precisely one exists. -/
theorem C9_payload_detection (dir : TrackDir) (n : Nat) :
    ((DetectFormatFromFile dir n).isOk = true ↔ numPayloadFiles dir n = 1)
    ∧ (numPayloadFiles dir n = 0 →
        DetectFormatFromFile dir n = .error (.packNoPayloadFile n))
    ∧ (2 ≤ numPayloadFiles dir n →
        DetectFormatFromFile dir n = .error (.packMultiplePayloadFiles n))
    ∧ (∀ f, payloadExists dir n f = true → numPayloadFiles dir n = 1 →
        DetectFormatFromFile dir n = .ok (f, payloadName f n)) := by
  cases h1 : payloadExists dir n .binary <;>
    cases h2 : payloadExists dir n .hex <;>
      cases h3 : payloadExists dir n .quoted <;>
        cases h4 : payloadExists dir n .asciihex <;>
          refine ⟨?_, ?_, ?_, fun f hf h1f => ?_⟩ <;>
            (try cases f) <;>
              simp_all [DetectFormatFromFile, existingList, numPayloadFiles,
                Except.isOk, Except.toBool]

/-- C9 witness: a directory with exactly one payload file (sector-5.bin)
selects the binary encoding. -/
theorem C9_witness :
    numPayloadFiles c9Dir 5 = 1
    ∧ DetectFormatFromFile c9Dir 5 = .ok (.binary, binName 5) :=
  ⟨by decide, (C9_payload_detection c9Dir 5).2.2.2 .binary (by decide) (by decide)⟩

/-! ## Claim C10 -/

/-- C10: every input shorter than 256 bytes is rejected with the too-small
error before any signature classification. -/
theorem C10_too_small (data : List Nat) (h : data.length < 256) :
    parseDSK data = .error .tooSmall := by
  simp [parseDSK, HeaderSize, h]

/-- C10 witness: a 34-byte buffer carrying a valid "EXTENDED" tag is still
refused as too small. -/
theorem C10_witness :
    c10Input.length < 256 ∧ listStarts extendedTag c10Input = true
    ∧ parseDSK c10Input = .error .tooSmall :=
  ⟨by decide, by decide, C10_too_small c10Input (by decide)⟩

/-! ## Payload length lemmas (claims C5, C6) -/

theorem wrap64_eq_of_range (x : Int) (h0 : 0 ≤ x) (h : x < 2 ^ 63) :
    wrap64 x = x := by
  unfold wrap64
  rw [Int.emod_eq_of_lt (by omega) (by omega)]
  omega

theorem extSecLenNat_of_dl (info : SectorInfo) (h : info.dataLength ≠ 0) :
    extSecLenNat info = info.dataLength := by
  simp [extSecLenNat, extSecLen, h]

theorem extSecLenNat_of_small (info : SectorInfo) (h0 : info.dataLength = 0)
    (h : info.n ≤ 55) : extSecLenNat info = 128 * 2 ^ info.n := by
  have hle : (2 : Int) ^ info.n ≤ 2 ^ 55 := by
    apply pow_le_pow_right₀ (by norm_num) h
  have hlt : (128 * 2 ^ info.n : Int) < 2 ^ 63 := by nlinarith
  have hnn : (0 : Int) ≤ 128 * 2 ^ info.n := by positivity
  have hsh : goShl1 info.n = 2 ^ info.n := by
    simp [goShl1, show info.n < 63 by omega]
  unfold extSecLenNat extSecLen
  rw [if_neg (by simp [h0]), hsh, wrap64_eq_of_range _ hnn hlt]
  norm_cast

theorem readPayloadsExt_len (td : List Nat) (tn : Nat) :
    ∀ (infos : List SectorInfo) (pos : Nat) (secs : List LogicalSector)
      (ws : List Warn),
      readPayloadsExt td tn infos pos = .ok (secs, ws) →
      ∀ s ∈ secs, s.data.length = extSecLenNat s.info := by
  intro infos
  induction infos with
  | nil =>
      intro pos secs ws h s hs
      simp only [readPayloadsExt, Except.ok.injEq, Prod.mk.injEq] at h
      obtain ⟨rfl, rfl⟩ := h
      simp at hs
  | cons info rest ih =>
      intro pos secs ws h s hs
      simp only [readPayloadsExt] at h
      split at h
      · simp at h
      · cases hrec : readPayloadsExt td tn rest
            (pos + consumed td pos (extSecLen info).toNat) with
        | error e => rw [hrec] at h; simp at h
        | ok p =>
            obtain ⟨secs', ws'⟩ := p
            rw [hrec] at h
            simp only [Except.ok.injEq, Prod.mk.injEq] at h
            obtain ⟨h1, -⟩ := h
            subst h1
            rcases List.mem_cons.mp hs with rfl | hs'
            · simp [readUpTo_length, extSecLenNat]
            · exact ih _ _ _ hrec s hs'

theorem extTrack_len (td : List Nat) (i : Nat) (trk : LogicalTrack)
    (ws : List Warn) (h : extTrack td i = .ok (trk, ws)) :
    ∀ s ∈ trk.sectors, s.data.length = extSecLenNat s.info := by
  simp only [extTrack] at h
  split at h
  · simp at h
  · cases hsi : readSectorInfosExt td 24 (readTrackHeader td).sectorCount with
    | error e => rw [hsi] at h; simp at h
    | ok p =>
        obtain ⟨infos, pos⟩ := p
        rw [hsi] at h
        dsimp only at h
        cases hp : readPayloadsExt td (readTrackHeader td).trackNum infos pos with
        | error e => rw [hp] at h; simp at h
        | ok q =>
            obtain ⟨secs, ws2⟩ := q
            rw [hp] at h
            simp only [Except.ok.injEq, Prod.mk.injEq] at h
            obtain ⟨h1, -⟩ := h
            intro s hs
            refine readPayloadsExt_len td _ infos pos secs ws2 hp s ?_
            rw [← h1] at hs
            exact hs

theorem extLoop_len (data table : List Nat) :
    ∀ (cnt off i : Nat) (trks : List LogicalTrack) (ws : List Warn),
      extLoop data table off i cnt = .ok (trks, ws) →
      ∀ t ∈ trks, ∀ s ∈ t.sectors, s.data.length = extSecLenNat s.info := by
  intro cnt
  induction cnt with
  | zero =>
      intro off i trks ws h t ht
      simp only [extLoop, Except.ok.injEq, Prod.mk.injEq] at h
      obtain ⟨rfl, rfl⟩ := h
      simp at ht
  | succ c ih =>
      intro off i trks ws h t ht s hs
      simp only [extLoop] at h
      split at h
      · simp at h
      · split at h
        · exact ih off (i + 1) trks ws h t ht s hs
        · split at h
          · simp at h
          · cases htr : extTrack ((data.drop off).take (table.getD i 0 * 256)) i with
            | error e => rw [htr] at h; simp at h
            | ok p =>
                obtain ⟨trk, ws1⟩ := p
                rw [htr] at h
                cases hrec : extLoop data table (off + table.getD i 0 * 256) (i + 1) c with
                | error e => rw [hrec] at h; simp at h
                | ok q =>
                    obtain ⟨trks', ws2⟩ := q
                    rw [hrec] at h
                    simp only [Except.ok.injEq, Prod.mk.injEq] at h
                    obtain ⟨h1, -⟩ := h
                    subst h1
                    rcases List.mem_cons.mp ht with rfl | ht'
                    · exact extTrack_len _ _ _ _ htr s hs
                    · exact ih _ _ _ _ hrec t ht' s hs

theorem readPayloadsStd_len (td2 : List Nat) (tdLen tn secLen : Nat) :
    ∀ (infos : List SectorInfo) (pos : Nat) (secs : List LogicalSector)
      (ws : List Warn),
      readPayloadsStd td2 tdLen tn secLen infos pos = .ok (secs, ws) →
      ∀ s ∈ secs, s.data.length = secLen := by
  intro infos
  induction infos with
  | nil =>
      intro pos secs ws h s hs
      simp only [readPayloadsStd, Except.ok.injEq, Prod.mk.injEq] at h
      obtain ⟨rfl, rfl⟩ := h
      simp at hs
  | cons info rest ih =>
      intro pos secs ws h s hs
      simp only [readPayloadsStd] at h
      split at h
      · simp at h
      · cases hrec : readPayloadsStd td2 tdLen tn secLen rest
            (pos + consumed td2 pos secLen) with
        | error e => rw [hrec] at h; simp at h
        | ok p =>
            obtain ⟨secs', ws'⟩ := p
            rw [hrec] at h
            simp only [Except.ok.injEq, Prod.mk.injEq] at h
            obtain ⟨h1, -⟩ := h
            subst h1
            rcases List.mem_cons.mp hs with rfl | hs'
            · simp [readUpTo_length, extSecLenNat]
            · exact ih _ _ _ hrec s hs'

theorem stdTrack_len (td : List Nat) (i sides : Nat) (trk : LogicalTrack)
    (ws : List Warn) (h : stdTrack td i sides = .ok (trk, ws)) :
    ∀ s ∈ trk.sectors, s.data.length = stdSecLen trk.header.sectorSize := by
  simp only [stdTrack] at h
  split at h
  · simp at h
  · split at h
    · simp only [Except.ok.injEq, Prod.mk.injEq] at h
      obtain ⟨h1, -⟩ := h
      subst h1
      intro s hs
      simp at hs
    · split at h
      · simp at h
      · split at h
        · simp only [Except.ok.injEq, Prod.mk.injEq] at h
          obtain ⟨h1, -⟩ := h
          subst h1
          intro s hs
          simp at hs
        · cases hsi : readSectorInfosStd td 24 (readTrackHeader td).sectorCount with
          | error e => rw [hsi] at h; simp at h
          | ok p =>
              obtain ⟨infos, pos2⟩ := p
              rw [hsi] at h
              dsimp only at h
              split at h
              · simp at h
              · split at h
                · simp at h
                · split at h
                  · simp at h
                  · cases hp : readPayloadsStd (td.drop 256) td.length
                        (readTrackHeader td).trackNum
                        (stdSecLen (readTrackHeader td).sectorSize) infos 0 with
                    | error e => rw [hp] at h; simp at h
                    | ok q =>
                        obtain ⟨secs, ws2⟩ := q
                        rw [hp] at h
                        simp only [Except.ok.injEq, Prod.mk.injEq] at h
                        obtain ⟨h1, -⟩ := h
                        intro s hs
                        rw [← h1] at hs ⊢
                        exact readPayloadsStd_len _ _ _ _ infos 0 secs ws2 hp s hs

theorem stdLoop_len (data : List Nat) (ts sides : Nat) :
    ∀ (cnt off i : Nat) (trks : List LogicalTrack) (ws : List Warn),
      stdLoop data ts sides off i cnt = .ok (trks, ws) →
      ∀ t ∈ trks, ∀ s ∈ t.sectors, s.data.length = stdSecLen t.header.sectorSize := by
  intro cnt
  induction cnt with
  | zero =>
      intro off i trks ws h t ht
      simp only [stdLoop, Except.ok.injEq, Prod.mk.injEq] at h
      obtain ⟨rfl, rfl⟩ := h
      simp at ht
  | succ c ih =>
      intro off i trks ws h t ht s hs
      simp only [stdLoop] at h
      split at h
      · simp at h
      · cases htr : stdTrack ((data.drop off).take ts) i sides with
        | error e => rw [htr] at h; simp at h
        | ok p =>
            obtain ⟨trk, ws1⟩ := p
            rw [htr] at h
            cases hrec : stdLoop data ts sides (off + ts) (i + 1) c with
            | error e => rw [hrec] at h; simp at h
            | ok q =>
                obtain ⟨trks', ws2⟩ := q
                rw [hrec] at h
                simp only [Except.ok.injEq, Prod.mk.injEq] at h
                obtain ⟨h1, -⟩ := h
                subst h1
                rcases List.mem_cons.mp ht with rfl | ht'
                · exact stdTrack_len _ _ _ _ _ htr s hs
                · exact ih _ _ _ _ hrec t ht' s hs

theorem parseExtendedDSK_tracks (data : List Nat) (dsk : DSK) (ws : List Warn)
    (h : parseExtendedDSK data = .ok (dsk, ws)) :
    ∀ t ∈ dsk.tracks, ∀ s ∈ t.sectors, s.data.length = extSecLenNat s.info := by
  simp only [parseExtendedDSK] at h
  split at h
  · simp at h
  · cases hl : extLoop data (readDiskHeader data).trackSizeTable 256 0
        ((readDiskHeader data).tracks * (readDiskHeader data).sides) with
    | error e => rw [hl] at h; simp at h
    | ok p =>
        obtain ⟨trks, ws2⟩ := p
        rw [hl] at h
        simp only [Except.ok.injEq, Prod.mk.injEq] at h
        obtain ⟨h1, -⟩ := h
        intro t ht
        rw [← h1] at ht
        exact extLoop_len data _ _ _ _ trks ws2 hl t ht

theorem parseStandardDSK_tracks (data : List Nat) (dsk : DSK) (ws : List Warn)
    (h : parseStandardDSK data = .ok (dsk, ws)) :
    ∀ t ∈ dsk.tracks, ∀ s ∈ t.sectors, s.data.length = stdSecLen t.header.sectorSize := by
  simp only [parseStandardDSK] at h
  split at h
  · simp at h
  · split at h
    · simp at h
    · split at h
      · simp at h
      · split at h
        · simp at h
        · split at h
          · simp at h
          · cases hl : stdLoop data
                (byteAt data 32 + 256 * byteAt data 33) (readDiskHeader data).sides
                256 0 ((readDiskHeader data).tracks * (readDiskHeader data).sides) with
            | error e => rw [hl] at h; simp at h
            | ok p =>
                obtain ⟨trks, ws2⟩ := p
                rw [hl] at h
                simp only [Except.ok.injEq, Prod.mk.injEq] at h
                obtain ⟨h1, -⟩ := h
                intro t ht
                rw [← h1] at ht
                exact stdLoop_len data _ _ _ _ _ trks ws2 hl t ht

/-! ## Symbolic evaluation of the N = 6 standard container (the payload is
too large to evaluate by kernel reduction, so the parse is established
through list lemmas) -/

theorem c6TrackPre_len : c6TrackPre.length = 256 := by decide

theorem c6Track_len : c6Track.length = 6400 := by
  rw [c6Track, List.length_append, c6TrackPre_len, List.length_replicate]

theorem c6Hdr256_len : c6Hdr256.length = 256 := by decide

theorem c6Input_len : c6Input.length = 6656 := by
  rw [c6Input, List.length_append, c6Hdr256_len, c6Track_len]

theorem c6Input_drop256 : c6Input.drop 256 = c6Track := by
  have h := List.drop_left c6Hdr256 c6Track
  rwa [c6Hdr256_len] at h

theorem c6Track_drop256 : c6Track.drop 256 = List.replicate 6144 171 := by
  have h := List.drop_left c6TrackPre (List.replicate 6144 171)
  rwa [c6TrackPre_len] at h

theorem c6_sectorInfos : readSectorInfosStd c6Track 24 1 = .ok ([c6Info], 30) := by
  have h1 : ¬ c6Track.length ≤ 24 := by rw [c6Track_len]; norm_num
  have h3 : consumed c6Track 24 6 = 6 := by rw [consumed, c6Track_len]; norm_num
  simp only [readSectorInfosStd, h3]
  rw [if_neg h1]
  rfl

theorem c6_payloads :
    readPayloadsStd (List.replicate 6144 171) 6400 0 6144 [c6Info] 0 =
      .ok ([c6Sec], []) := by
  have h1 : readUpTo (List.replicate 6144 171) 0 6144 = List.replicate 6144 171 := by
    rw [readUpTo, List.drop_zero, List.take_replicate]
    norm_num
  have h2 : consumed (List.replicate 6144 171) 0 6144 = 6144 := by
    rw [consumed, List.length_replicate]
    norm_num
  simp only [readPayloadsStd, h1, h2]
  rw [if_neg (by norm_num), if_neg (by norm_num)]
  rfl

theorem c6_stdTrack : stdTrack c6Track 0 1 = .ok (c6Trk, [.sigMismatch 0]) := by
  have h24 : ¬ c6Track.length < 24 := by rw [c6Track_len]; norm_num
  have h256 : ¬ c6Track.length < 256 := by rw [c6Track_len]; norm_num
  have hth : readTrackHeader c6Track = c6Th := by rfl
  have hu : uniform100 c6Track = false := by rfl
  have hsv : (decide (13 ≤ c6Th.signature.length) &&
      (c6Th.signature.take 13 == trackInfoSig12)) = false := by rfl
  have hsc : c6Th.sectorCount = 1 := rfl
  have hss : c6Th.sectorSize = 6 := rfl
  have htn : c6Th.trackNum = 0 := rfl
  have hsl : stdSecLen 6 = 6144 := rfl
  simp only [stdTrack, hth, hsv, hu]
  rw [if_neg h24]
  simp only [Bool.not_false, Bool.and_false, hsc, hss, htn]
  rw [if_neg (by norm_num), if_neg (by norm_num), if_neg (by norm_num),
    c6_sectorInfos]
  simp only [hsl]
  rw [if_neg h256]
  rw [if_neg (by norm_num)]
  rw [c6Track_drop256, c6Track_len]
  rw [c6_payloads]
  rw [if_neg (by norm_num)]
  rfl

theorem c6_stdLoop : stdLoop c6Input 6400 1 256 0 1 = .ok ([c6Trk], [.sigMismatch 0]) := by
  have hlen : ¬ c6Input.length < 256 + 6400 := by rw [c6Input_len]; norm_num
  have hslice : (c6Input.drop 256).take 6400 = c6Track := by
    rw [c6Input_drop256]
    exact List.take_of_length_le (by rw [c6Track_len])
  simp only [stdLoop, hslice, c6_stdTrack]
  rw [if_neg hlen]
  rfl

theorem c6Input_parse :
    parseStandardDSK c6Input = .ok (c6Dsk, [.sigMismatch 0]) := by
  have hlen : ¬ c6Input.length < 256 := by rw [c6Input_len]; norm_num
  have hhd : readDiskHeader c6Input = c6Hdr := by rfl
  have htr : c6Hdr.tracks = 1 := rfl
  have hsd : c6Hdr.sides = 1 := rfl
  have hts : byteAt c6Input 32 + 256 * byteAt c6Input 33 = 6400 := by rfl
  have hexp : ¬ c6Input.length < 256 + 1 * 1 * 6400 := by rw [c6Input_len]; norm_num
  simp only [parseStandardDSK, hhd, htr, hsd, hts, Nat.one_mul]
  rw [if_neg hlen, if_neg (by norm_num), if_neg (by norm_num),
    if_neg (by norm_num), if_neg (by rw [c6Input_len]; norm_num)]
  simp only [c6_stdLoop]
  rfl

/-! ## Claim C5 -/

/-- C5 counterexample: an Extended sector declaring size code N = 60 with
explicit DataLength 0 parses successfully with an empty payload — the
parser evaluates `128 * (1 << 60)` in 64-bit int arithmetic, which wraps to
0 — not with the claimed 128 * 2^60 bytes. -/
theorem C5_cex :
    (parseDSK c5CexInput).map
      (fun p => p.1.tracks.map (fun t => t.sectors.map
        (fun s => (s.info.n, s.info.dataLength, s.data.length)))) = .ok [[(60, 0, 0)]]
    ∧ (0 : Nat) ≠ 128 * 2 ^ 60 :=
  ⟨by rfl, by decide⟩

/-- C5 (amended): every sector emitted by a successful parse has payload
length equal to the parser's computed length — for Extended the explicit
DataLength when nonzero, otherwise `128 * 2^N` evaluated in 64-bit int
arithmetic (`extSecLenNat`), which agrees with `128 * 2^N` for all N ≤ 55;
for Standard the track-level `stdSecLen` value. Missing source bytes are
zero-padded, so this holds also for truncated buffers. -/
theorem C5_payload_length :
    (∀ (data : List Nat) (dsk : DSK) (ws : List Warn),
        parseExtendedDSK data = .ok (dsk, ws) →
        ∀ t ∈ dsk.tracks, ∀ s ∈ t.sectors,
          s.data.length = extSecLenNat s.info
          ∧ (s.info.dataLength ≠ 0 → s.data.length = s.info.dataLength)
          ∧ (s.info.dataLength = 0 → s.info.n ≤ 55 →
              s.data.length = 128 * 2 ^ s.info.n))
    ∧ (∀ (data : List Nat) (dsk : DSK) (ws : List Warn),
        parseStandardDSK data = .ok (dsk, ws) →
        ∀ t ∈ dsk.tracks, ∀ s ∈ t.sectors,
          s.data.length = stdSecLen t.header.sectorSize) := by
  constructor
  · intro data dsk ws h t ht s hs
    have hl := parseExtendedDSK_tracks data dsk ws h t ht s hs
    exact ⟨hl, fun hdl => by rw [hl, extSecLenNat_of_dl s.info hdl],
      fun h0 h55 => by rw [hl, extSecLenNat_of_small s.info h0 h55]⟩
  · intro data dsk ws h
    exact parseStandardDSK_tracks data dsk ws h

/-- C5 witness: the invariant instantiated on a concrete Extended container
(`c1Input`, explicit DataLength 1) and a concrete Standard container
(`c6Input`, track-level N = 6). -/
theorem C5_witness :
    parseExtendedDSK c1Input = .ok (c5ExtDsk, c5ExtWs)
    ∧ c5ExtSec.data.length = extSecLenNat c5ExtSec.info
    ∧ parseStandardDSK c6Input = .ok (c6Dsk, [.sigMismatch 0])
    ∧ c6Sec.data.length = stdSecLen c6Trk.header.sectorSize := by
  refine ⟨by rfl, ?_, c6Input_parse, ?_⟩
  · exact (C5_payload_length.1 c1Input c5ExtDsk c5ExtWs (by rfl) c5ExtTrk
      (by decide) c5ExtSec (by decide)).1
  · exact C5_payload_length.2 c6Input c6Dsk [.sigMismatch 0] c6Input_parse
      c6Trk (by simp [c6Dsk]) c6Sec (by simp [c6Trk])

/-! ## Claim C6 -/

/-- C6: in the Standard parser, a track whose header sector-size code is 6
gives every sector of the track exactly 0x1800 = 6144 payload bytes, not
128 * 2^6 = 8192. -/
theorem C6_n6_payload (data : List Nat) (dsk : DSK) (ws : List Warn)
    (h : parseStandardDSK data = .ok (dsk, ws)) :
    ∀ t ∈ dsk.tracks, t.header.sectorSize = 6 →
      ∀ s ∈ t.sectors, s.data.length = 6144 ∧ s.data.length ≠ 128 * 2 ^ 6 := by
  intro t ht h6 s hs
  have hl := parseStandardDSK_tracks data dsk ws h t ht s hs
  rw [hl, h6]
  exact ⟨by simp [stdSecLen], by simp [stdSecLen]⟩

/-- C6 witness: the concrete N = 6 Standard container. -/
theorem C6_witness :
    c6Trk.header.sectorSize = 6 ∧ c6Sec.data.length = 6144 :=
  ⟨rfl,
    (C6_n6_payload c6Input c6Dsk [.sigMismatch 0] c6Input_parse c6Trk
      (by simp [c6Dsk]) rfl c6Sec (by simp [c6Trk])).1⟩

/-! ## Standard-parser structure lemmas (claim C7) -/

theorem stdSigValid_false (td : List Nat) (h : ¬ td.length < 24) :
    (decide (13 ≤ (readTrackHeader td).signature.length) &&
      ((readTrackHeader td).signature.take 13 == trackInfoSig12)) = false := by
  have hlen : (readTrackHeader td).signature.length = 13 := by
    simp only [readTrackHeader, List.length_take]
    omega
  have hbe : ((readTrackHeader td).signature.take 13 == trackInfoSig12) = false := by
    rw [List.take_of_length_le (le_of_eq hlen)]
    cases hb : (readTrackHeader td).signature == trackInfoSig12 with
    | false => rfl
    | true =>
        exfalso
        have h2 := congrArg List.length (eq_of_beq hb)
        rw [hlen] at h2
        simp [trackInfoSig12] at h2
  rw [hbe, Bool.and_false]

theorem readPayloadsStd_warns (td2 : List Nat) (tdLen tn secLen : Nat) :
    ∀ (infos : List SectorInfo) (pos : Nat) (secs : List LogicalSector)
      (ws : List Warn),
      readPayloadsStd td2 tdLen tn secLen infos pos = .ok (secs, ws) →
      ∀ k, Warn.sigMismatch k ∉ ws := by
  intro infos
  induction infos with
  | nil =>
      intro pos secs ws h k
      simp only [readPayloadsStd, Except.ok.injEq, Prod.mk.injEq] at h
      obtain ⟨-, rfl⟩ := h
      simp
  | cons info rest ih =>
      intro pos secs ws h k
      simp only [readPayloadsStd] at h
      split at h
      · simp at h
      · cases hrec : readPayloadsStd td2 tdLen tn secLen rest
            (pos + consumed td2 pos secLen) with
        | error e => rw [hrec] at h; simp at h
        | ok p =>
            obtain ⟨secs', ws'⟩ := p
            rw [hrec] at h
            simp only [Except.ok.injEq, Prod.mk.injEq] at h
            obtain ⟨-, h2⟩ := h
            subst h2
            intro hmem
            rcases List.mem_append.mp hmem with h3 | h3
            · split at h3 <;> simp at h3
            · exact ih _ _ _ hrec k h3

theorem stdTrack_props (td : List Nat) (i sides : Nat) (trk : LogicalTrack)
    (ws : List Warn) (h : stdTrack td i sides = .ok (trk, ws)) :
    (uniform100 td = true →
      trk.header.sectorCount = 0 ∧ trk.sectors = [] ∧ ws = [])
    ∧ (∀ k, Warn.sigMismatch k ∈ ws → k = i ∧ uniform100 td = false) := by
  simp only [stdTrack] at h
  split at h
  · simp at h
  · rename_i hlen24
    rw [stdSigValid_false td hlen24] at h
    simp only [Bool.not_false, Bool.true_and] at h
    split at h
    · rename_i hu
      simp only [Except.ok.injEq, Prod.mk.injEq] at h
      obtain ⟨h1, h2⟩ := h
      subst h2
      constructor
      · intro _
        refine ⟨?_, ?_, rfl⟩ <;> rw [← h1]
      · intro k hk
        simp at hk
    · rename_i hu
      have hufalse : uniform100 td = false := by
        cases hx : uniform100 td with
        | false => rfl
        | true => exact absurd hx hu
      split at h
      · simp at h
      · split at h
        · simp only [Except.ok.injEq, Prod.mk.injEq] at h
          obtain ⟨h1, h2⟩ := h
          subst h2
          refine ⟨fun hc => absurd hc hu, fun k hk => ?_⟩
          simp at hk
          exact ⟨hk, hufalse⟩
        · cases hsi : readSectorInfosStd td 24 (readTrackHeader td).sectorCount with
          | error e => rw [hsi] at h; simp at h
          | ok p =>
              obtain ⟨infos, pos2⟩ := p
              rw [hsi] at h
              dsimp only at h
              split at h
              · simp at h
              · split at h
                · simp at h
                · split at h
                  · simp at h
                  · cases hp : readPayloadsStd (td.drop 256) td.length
                        (readTrackHeader td).trackNum
                        (stdSecLen (readTrackHeader td).sectorSize) infos 0 with
                    | error e => rw [hp] at h; simp at h
                    | ok q =>
                        obtain ⟨secs, ws2⟩ := q
                        rw [hp] at h
                        simp only [Except.ok.injEq, Prod.mk.injEq] at h
                        obtain ⟨h1, h2⟩ := h
                        subst h2
                        refine ⟨fun hc => absurd hc hu, fun k hk => ?_⟩
                        rcases List.mem_append.mp hk with h3 | h3
                        · simp at h3
                          exact ⟨h3, hufalse⟩
                        · exact absurd h3
                            (readPayloadsStd_warns _ _ _ _ infos 0 secs ws2 hp k)

theorem stdLoop_struct (data : List Nat) (ts sides : Nat) :
    ∀ (cnt i : Nat) (trks : List LogicalTrack) (ws : List Warn),
      stdLoop data ts sides (256 + i * ts) i cnt = .ok (trks, ws) →
      trks.length = cnt
      ∧ (∀ j, j < cnt →
          uniform100 ((data.drop (256 + (i + j) * ts)).take ts) = true →
          (trks.getD j default).header.sectorCount = 0
          ∧ (trks.getD j default).sectors = [])
      ∧ (∀ k, Warn.sigMismatch k ∈ ws →
          uniform100 ((data.drop (256 + k * ts)).take ts) = false) := by
  intro cnt
  induction cnt with
  | zero =>
      intro i trks ws h
      simp only [stdLoop, Except.ok.injEq, Prod.mk.injEq] at h
      obtain ⟨rfl, rfl⟩ := h
      refine ⟨rfl, fun j hj => absurd hj (by omega), fun k hk => ?_⟩
      simp at hk
  | succ c ih =>
      intro i trks ws h
      simp only [stdLoop] at h
      split at h
      · simp at h
      · cases htr : stdTrack ((data.drop (256 + i * ts)).take ts) i sides with
        | error e => rw [htr] at h; simp at h
        | ok p =>
            obtain ⟨trk, ws1⟩ := p
            rw [htr] at h
            cases hrec : stdLoop data ts sides (256 + i * ts + ts) (i + 1) c with
            | error e => rw [hrec] at h; simp at h
            | ok q =>
                obtain ⟨trks', ws2⟩ := q
                rw [hrec] at h
                simp only [Except.ok.injEq, Prod.mk.injEq] at h
                obtain ⟨h1, h2⟩ := h
                subst h1
                subst h2
                have harith : 256 + i * ts + ts = 256 + (i + 1) * ts := by ring
                rw [harith] at hrec
                obtain ⟨ihlen, ihuni, ihwarn⟩ := ih (i + 1) trks' ws2 hrec
                have hprops := stdTrack_props _ i sides trk ws1 htr
                refine ⟨by simp [ihlen], ?_, ?_⟩
                · intro j hj hu
                  cases j with
                  | zero =>
                      simp only [Nat.add_zero] at hu
                      obtain ⟨hc0, hs0, -⟩ := hprops.1 hu
                      simp only [List.getD_cons_zero]
                      exact ⟨hc0, hs0⟩
                  | succ j' =>
                      have := ihuni j' (by omega)
                        (by rw [show i + 1 + j' = i + (j' + 1) by ring]; exact hu)
                      simpa using this
                · intro k hk
                  rcases List.mem_append.mp hk with h3 | h3
                  · obtain ⟨rfl, hfu⟩ := hprops.2 k h3
                    exact hfu
                  · exact ihwarn k h3

/-! ## Claim C7 -/

/-- C7: for a successful Standard parse, every track block whose first 100
bytes are all one value yields a track with sector count 0 and no sectors,
the parser continues (one track per position, so the track list has full
length), and no signature-mismatch warning is emitted for that position. -/
theorem C7_uniform_unformatted (data : List Nat) (dsk : DSK) (ws : List Warn)
    (h : parseStandardDSK data = .ok (dsk, ws)) (i : Nat)
    (hi : i < byteAt data 48 * byteAt data 49)
    (hu : uniform100 ((data.drop (256 + i * (byteAt data 32 + 256 * byteAt data 33))).take
        (byteAt data 32 + 256 * byteAt data 33)) = true) :
    dsk.tracks.length = byteAt data 48 * byteAt data 49
    ∧ (dsk.tracks.getD i default).header.sectorCount = 0
    ∧ (dsk.tracks.getD i default).sectors = []
    ∧ Warn.sigMismatch i ∉ ws := by
  have e1 : (readDiskHeader data).tracks = byteAt data 48 := rfl
  have e2 : (readDiskHeader data).sides = byteAt data 49 := rfl
  simp only [parseStandardDSK] at h
  split at h
  · simp at h
  · split at h
    · simp at h
    · split at h
      · simp at h
      · split at h
        · simp at h
        · split at h
          · simp at h
          · cases hl : stdLoop data (byteAt data 32 + 256 * byteAt data 33)
                (readDiskHeader data).sides 256 0
                ((readDiskHeader data).tracks * (readDiskHeader data).sides) with
            | error e => rw [hl] at h; simp at h
            | ok p =>
                obtain ⟨trks, ws2⟩ := p
                rw [hl] at h
                simp only [Except.ok.injEq, Prod.mk.injEq] at h
                obtain ⟨h1, h2⟩ := h
                subst h2
                rw [e1, e2] at hl
                have h256 : (256 : Nat) = 256 + 0 * (byteAt data 32 + 256 * byteAt data 33) := by
                  ring
                nth_rewrite 2 [h256] at hl
                obtain ⟨hlen, huni, hwarn⟩ := stdLoop_struct data
                  (byteAt data 32 + 256 * byteAt data 33) (byteAt data 49)
                  (byteAt data 48 * byteAt data 49) 0 trks ws2 hl
                have htr : dsk.tracks = trks := by rw [← h1]
                refine ⟨by rw [htr]; exact hlen, ?_, ?_, ?_⟩
                · rw [htr]
                  exact (huni i hi (by simpa using hu)).1
                · rw [htr]
                  exact (huni i hi (by simpa using hu)).2
                · intro hmem
                  have := hwarn i hmem
                  rw [this] at hu
                  simp at hu

/-- C7 witness: the all-0xE5 single-track container parses to one track
with no sectors and no signature warning. -/
theorem C7_witness :
    parseStandardDSK c7Input = .ok (c7Dsk, c7Ws)
    ∧ (c7Dsk.tracks.getD 0 default).header.sectorCount = 0
    ∧ (c7Dsk.tracks.getD 0 default).sectors = []
    ∧ Warn.sigMismatch 0 ∉ c7Ws := by
  have h := C7_uniform_unformatted c7Input c7Dsk c7Ws (by rfl) 0 (by decide) (by decide)
  exact ⟨by rfl, h.2.1, h.2.2.1, h.2.2.2⟩

/-! ## Claim C8 -/

/-- C8: refuted of the program as written. The claim (with the spec and the
code's own comment and struct layout) places the 16-bit little-endian fixed
track size at bytes 0x32-0x33 (decimal 50-51, the DiskHeader padding field),
but parser.go line 164 executes `binary.LittleEndian.Uint16(data[32:34])` —
DECIMAL offsets 32-33, inside the signature field. `c8ClaimValid` satisfies
all three claimed bounds (track count 1, side count 1, value 0x100 at bytes
0x32-0x33) yet is rejected with the range error "invalid track size: 0",
so the claim's pass-through half is false; conversely `c7Input` carries 0
at bytes 0x32-0x33 (below the claimed minimum 256) yet parses successfully,
so the claim's failure half is false too. -/
theorem C8_trackSize_wrong_offset :
    (byteAt c8ClaimValid 48 = 1
      ∧ byteAt c8ClaimValid 49 = 1
      ∧ byteAt c8ClaimValid 50 + 256 * byteAt c8ClaimValid 51 = 256
      ∧ parseStandardDSK c8ClaimValid = .error (.invalidTrackSize 0))
    ∧ (byteAt c7Input 50 + 256 * byteAt c7Input 51 = 0
      ∧ (parseStandardDSK c7Input).isOk = true) :=
  ⟨⟨by decide, by decide, by decide, by rfl⟩, ⟨by decide, by rfl⟩⟩

/-! ## Pack loop lemmas (claim C3) -/

theorem packLoop_ok_dirs (root : Root) (table204 : List Nat) (sides : Nat) :
    ∀ (cnt i : Nat) (out res : List Nat),
      packLoop root table204 sides out i cnt = .ok res →
      ∀ j, i ≤ j → j < i + cnt → table204.getD j 0 ≠ 0 →
        (packFindDir root sides j).isSome = true := by
  intro cnt
  induction cnt with
  | zero => intro i out res _ j hj1 hj2 _; omega
  | succ c ih =>
      intro i out res h j hj1 hj2 hne
      simp only [packLoop] at h
      cases hdir : packFindDir root sides i with
      | none =>
          rw [hdir] at h
          dsimp only at h
          split at h
          · rename_i hts
            by_cases hji : j = i
            · subst hji
              exact absurd (by omega : table204.getD j 0 = 0) hne
            · exact ih (i + 1) out res h j (by omega) (by omega) hne
          · simp at h
      | some dir =>
          by_cases hji : j = i
          · subst hji
            rw [hdir]
            rfl
          · rw [hdir] at h
            dsimp only at h
            split at h
            · exact ih (i + 1) out res h j (by omega) (by omega) hne
            · split at h
              · rename_i tm heq
                cases hps : packSectors dir (sortNames (dir.files.map (fun p => p.1))) [] [] with
                | error e => rw [hps] at h; simp at h
                | ok p =>
                    obtain ⟨infos, dmap⟩ := p
                    rw [hps] at h
                    dsimp only at h
                    exact ih (i + 1) _ res h j (by omega) (by omega) hne
              · simp at h

/-! ## Claim C3 -/

/-- C3 counterexample: a pack input whose single size-table entry is 0 while
the track directory for that position exists and is non-empty; Pack
succeeds, silently skipping the position, instead of failing with the
claimed consistency error. -/
theorem C3_cex :
    (Pack c3CexRoot).isOk = true
    ∧ (packTable204 [0]).getD 0 0 = 0
    ∧ packFindDir c3CexRoot 1 0 = some ⟨[(trackMetaName, .tmeta c3TmEmpty)]⟩
    ∧ [(trackMetaName, FileC.tmeta c3TmEmpty)] ≠ ([] : List (List Nat × FileC)) :=
  ⟨by rfl, by rfl, by rfl, by simp⟩

/-- C3 (amended): Pack fails whenever a position's size-table entry is
nonzero but its track directory is absent — equivalently, a successful Pack
implies every position with a nonzero entry has a directory — while a zero
entry makes the loop skip the position identically whether or not a
directory exists (no error either way). -/
theorem C3_pack_consistency :
    (∀ (root : Root) (dm : DiskMeta) (out : List Nat),
      root.diskMeta = some dm → Pack root = .ok out →
      ∀ i, i < (dm.tracks.getD 0 % 256) * (dm.sides.getD 0 % 256) →
        (packTable204 (dm.trackSizeTable.getD [])).getD i 0 ≠ 0 →
        (packFindDir root (dm.sides.getD 0 % 256) i).isSome = true)
    ∧ (∀ (root : Root) (table204 : List Nat) (sides : Nat) (out : List Nat)
        (i c : Nat),
        table204.getD i 0 = 0 →
        packLoop root table204 sides out i (c + 1) =
          packLoop root table204 sides out (i + 1) c) := by
  constructor
  · intro root dm out hdm hok i hi hne
    simp only [Pack, hdm] at hok
    cases hcr : dm.creator with
    | none => rw [hcr] at hok; simp at hok
    | some creator =>
        rw [hcr] at hok
        dsimp only at hok
        cases htk : dm.tracks with
        | none => rw [htk] at hok; simp at hok
        | some tracksRaw =>
            rw [htk] at hok
            dsimp only at hok
            cases hsd : dm.sides with
            | none => rw [hsd] at hok; simp at hok
            | some sidesRaw =>
                rw [hsd] at hok
                dsimp only at hok
                cases htb : dm.trackSizeTable with
                | none => rw [htb] at hok; simp at hok
                | some values =>
                    rw [htb] at hok
                    dsimp only at hok
                    split at hok
                    · simp at hok
                    · split at hok
                      · simp at hok
                      · simp only [htk, hsd, htb, Option.getD_some] at hi hne ⊢
                        exact packLoop_ok_dirs root (packTable204 values)
                          (sidesRaw % 256) ((tracksRaw % 256) * (sidesRaw % 256))
                          0 _ out hok i (by omega) (by omega) hne
  · intro root table204 sides out i c hz
    have hts : table204.getD i 0 * 256 = 0 := by omega
    simp only [packLoop]
    cases hdir : packFindDir root sides i with
    | none => dsimp only; rw [if_pos hts]
    | some dir => dsimp only; rw [if_pos hts]

/-- C3 witness: a pack input with a nonzero entry and a complete directory
packs successfully, and the amended theorem instantiates to show the
directory for that position indeed exists. -/
theorem C3_witness :
    Pack c3WRoot = .ok c3WOut
    ∧ (packTable204 [1]).getD 0 0 ≠ 0
    ∧ (packFindDir c3WRoot 1 0).isSome = true := by
  refine ⟨by rfl, by decide, ?_⟩
  exact C3_pack_consistency.1 c3WRoot _ c3WOut rfl (by rfl) 0 (by decide) (by decide)

end Magneato
